import Mathlib

/-! Transaction decoding, structural validation and sign bytes (`x/auth/ante/tx.go`).

A shallow embedding of `DefaultTxDecoder`, `DecodedTx.ValidateBasic`,
`DecodedTx.GetSignBytes`, `DirectSignBytes` and the accessors of `DecodedTx`.

Conventions of the embedding:

* `[]byte` is `List Nat`, `uint64` is `Nat` (no arithmetic is performed on it, only
  comparison and copying), `int64` is `Int`, a Go `error` result is `Except Error _`.
* Go interface values (`sdk.Msg`, `authexported.Account`, `sdk.Context`) are records of
  what the methods called by this file return.
* Library code that this file calls but does not define (`AccAddress.String`,
  the protobuf `Unmarshal`/`Marshal` methods, `auth.StdSignBytes`, `auth.MaxGasWanted`,
  the `%+v` rendering of an `Any`) is collected in the record `Env` and every
  definition takes it as a parameter.
* The protobuf message types `Tx`, `TxBody`, `AuthInfo`, `Fee`, `SignerInfo`, `ModeInfo`
  are declared outside this file. `Tx`, `AuthInfo` and `SignerInfo` are the records with
  every sub-message present, with the fields this file reads; `WireTx`, `WireAuthInfo`
  and `WireSignerInfo` hold the sub-messages by pointer, and `DefaultTxDecoderWire`,
  `WireDecodedTx.ValidateBasic` and `WireDecodedTx.GetSignBytes` abort where the code
  dereferences a nil pointer. The two descriptions agree on present sub-messages
  (`DefaultTxDecoderWire_toWire`, `ValidateBasic_toWire`, `GetSignBytes_toWire`).
* A Go `map[string]V` is `GoMap V`, an association list with at most one entry per key.
* `DefaultTxDecoderPointers` is the decoder with the body and auth-info of the
  transaction held by pointer, for encodings that omit one of them.
* `newAnteHandler` is the function of that name in `x/feegrant/ante/fee_test.go`.
* `Slice` keeps the nil value of a Go slice apart from the empty slice;
  `resolveSignersSlice` and `FeePayerOfSlice` are the signer loop and `FeePayer` on it.
* The fee allowance keeper and the fee deduction decorator are outside the embedded
  files; `FeeStores`, `UseAllowance`, `DeductFees` and `DeductGrantedFee` are modelled
  from sections 3, 4.5 and 6 of the spec.
-/

namespace Ante

/-! ## Data model -/

/-- Go `[]byte`. -/
abbrev Bytes := List Nat

/-- Type `sdk.AccAddress`, a byte slice. -/
abbrev AccAddress := List Nat

/-- Type `crypto.PubKey`, identified with its encoded bytes. -/
structure PubKey where
  bytes : Bytes
deriving DecidableEq, Repr

/-- Interface `sdk.Msg`: the results of the two methods that matter for signing. -/
structure Msg where
  GetSigners : List AccAddress
  GetSignBytes : Bytes
deriving DecidableEq, Repr

/-- Dynamic value cached inside a protobuf `Any`. The decoder only asks whether it is an
`sdk.Msg` or a `crypto.PubKey`; `other` stands for a nil interface value or a value of
another type. -/
inductive CachedValue where
  | msg (m : Msg)
  | pubKey (k : PubKey)
  | other
deriving DecidableEq, Repr

/-- Protobuf `Any` with its cached, already unpacked value. -/
structure Any where
  TypeUrl : String
  Value : Bytes
  cachedValue : CachedValue
deriving DecidableEq, Repr

/-- Method `(*Any).GetCachedValue`. -/
def Any.GetCachedValue (a : Any) : CachedValue := a.cachedValue

/-- Enum `sdk.SignMode`. Protobuf enums are open, `unknown` carries any other number. -/
inductive SignMode where
  | SIGN_MODE_UNSPECIFIED
  | SIGN_MODE_DIRECT
  | SIGN_MODE_TEXTUAL
  | SIGN_MODE_LEGACY_AMINO_JSON
  | unknown (value : Int)
deriving DecidableEq, Repr

/-- The oneof `ModeInfo.Sum`: `*ModeInfo_Single_`, `*ModeInfo_Multi_` (its descriptor is
never inspected here and kept as bytes) or not set. -/
inductive ModeInfoSum where
  | Single (mode : SignMode)
  | Multi (descriptor : Bytes)
  | unset
deriving DecidableEq, Repr

/-- Message `sdk.ModeInfo`. -/
structure ModeInfo where
  Sum : ModeInfoSum
deriving DecidableEq, Repr

/-- Message `sdk.SignerInfo`. -/
structure SignerInfo where
  PublicKey : Any
  ModeInfo : ModeInfo
deriving DecidableEq, Repr

/-- Type `sdk.Coin`. -/
structure Coin where
  Denom : String
  Amount : Int
deriving DecidableEq, Repr

/-- Type `sdk.Coins`. -/
abbrev Coins := List Coin

/-- Modelled from the spec: `sdk.Coins.IsAnyNegative` is library code outside this file;
the spec asks that no fee amount be negative, so it holds when some coin of the
collection has a negative amount. -/
def Coins.IsAnyNegative (coins : Coins) : Bool :=
  coins.any fun coin => decide (coin.Amount < 0)

/-- Message `sdk.Fee`. -/
structure Fee where
  Amount : Coins
  GasLimit : Nat
  /-- Modelled from the spec: the declared payer field of the transaction, empty when no
  payer is declared. The message is declared outside this file and no function of this
  file reads the field. -/
  Payer : AccAddress := []
deriving DecidableEq, Repr

/-- Message `sdk.AuthInfo`. -/
structure AuthInfo where
  SignerInfos : List SignerInfo
  Fee : Fee
deriving DecidableEq, Repr

/-- Message `sdk.TxBody`. -/
structure TxBody where
  Messages : List Any
  Memo : String
deriving DecidableEq, Repr

/-- Message `sdk.Tx`. -/
structure Tx where
  Body : TxBody
  AuthInfo : AuthInfo
  Signatures : List Bytes
deriving DecidableEq, Repr

/-- Message `TxRaw`: the body and auth-info byte ranges exactly as they were on the wire. -/
structure TxRaw where
  BodyBytes : Bytes
  AuthInfoBytes : Bytes
  Signatures : List Bytes
deriving DecidableEq, Repr

/-- Message `SignDocRaw`. -/
structure SignDocRaw where
  BodyBytes : Bytes
  AuthInfoBytes : Bytes
  ChainId : String
  AccountNumber : Nat
  AccountSequence : Nat
deriving DecidableEq, Repr

/-- Type `auth.StdFee`. -/
structure StdFee where
  Amount : Coins
  Gas : Nat
deriving DecidableEq, Repr

/-- Registered errors of `sdkerrors` that this file returns. -/
inductive SdkError where
  | ErrInvalidRequest
  | ErrInsufficientFee
  | ErrNoSignatures
  | ErrUnauthorized
deriving DecidableEq, Repr

/-- Go `error` values produced by this file. `wrapped` is `sdkerrors.Wrapf` (the
formatted description is not kept), `registered` a registered error returned as is,
`errorf` a `fmt.Errorf` with its rendered text, `external` an error handed back by
library code. -/
inductive Error where
  | external (text : String)
  | errorf (text : String)
  | registered (e : SdkError)
  | wrapped (e : SdkError)
deriving DecidableEq, Repr

/-- The registered error an `error` value is or wraps, if any (what `errors.Is` sees). -/
def Error.kind : Error → Option SdkError
  | .registered e => some e
  | .wrapped e => some e
  | _ => none

/-- Interface `sdk.Context`, the two values read by `GetSignBytes`. -/
structure Context where
  BlockHeight : Int
  ChainID : String
deriving DecidableEq, Repr

/-- Interface `authexported.Account`, the three values read by `GetSignBytes`. -/
structure Account where
  GetAddress : AccAddress
  GetAccountNumber : Nat
  GetSequence : Nat
deriving DecidableEq, Repr

/-- Library code called by this file. -/
structure Env where
  /-- Method `sdk.AccAddress.String`. -/
  addrString : AccAddress → String
  /-- Method `(*TxRaw).Unmarshal`. -/
  unmarshalTxRaw : Bytes → Except Error TxRaw
  /-- Method `(*sdk.Tx).Unmarshal`. -/
  unmarshalTx : Bytes → Except Error Tx
  /-- Rendering of an `Any` by the verb `%+v`. -/
  formatAny : Any → String
  /-- Constant `auth.MaxGasWanted`. -/
  MaxGasWanted : Nat
  /-- Method `(*SignDocRaw).Marshal`. -/
  marshalSignDocRaw : SignDocRaw → Except Error Bytes
  /-- Function `auth.StdSignBytes`. -/
  StdSignBytes : String → Nat → Nat → StdFee → List Msg → String → Bytes

/-! ## Go maps with string keys -/

/-- Go `map[string]V`: an association list, kept with one entry per key by `set`. -/
abbrev GoMap (V : Type) := List (String × V)

/-- Map read `m[k]` with the comma-ok result. -/
def GoMap.get {V : Type} : GoMap V → String → Option V
  | [], _ => none
  | (k', v) :: m, k => if k' = k then some v else GoMap.get m k

/-- Map write `m[k] = v`. -/
def GoMap.set {V : Type} : GoMap V → String → V → GoMap V
  | [], k, v => [(k, v)]
  | (k', v') :: m, k, v => if k' = k then (k, v) :: m else (k', v') :: GoMap.set m k v

/-- Keys of a map. -/
def GoMap.keys {V : Type} (m : GoMap V) : List String := m.map Prod.fst

/-! ## `DecodedTx` and `DefaultTxDecoder` -/

/-- Struct `DecodedTx`. -/
structure DecodedTx where
  Tx : Tx
  Raw : TxRaw
  Msgs : List Msg
  PubKeys : List PubKey
  Signers : List AccAddress
  SignerInfoMap : GoMap SignerInfo
deriving DecidableEq, Repr

/-- Lines 42-49 of `DefaultTxDecoder`: every body message must hold an `sdk.Msg`. -/
def decodeMsgs (env : Env) : List Any → Except Error (List Msg)
  | [] => .ok []
  | a :: rest =>
    match a.GetCachedValue with
    | .msg m =>
      match decodeMsgs env rest with
      | .ok ms => .ok (m :: ms)
      | .error e => .error e
    | _ => .error (.errorf ("can\x27t decode sdk.Msg from " ++ env.formatAny a))

/-- Body of the inner loop at lines 55-60: one address, the state being `signers` and
`seen`. -/
def signerStep (env : Env) (st : List AccAddress × GoMap Bool) (addr : AccAddress) :
    List AccAddress × GoMap Bool :=
  if (st.2.get (env.addrString addr)).getD false = false then
    (st.1 ++ [addr], st.2.set (env.addrString addr) true)
  else st

/-- Lines 51-61 of `DefaultTxDecoder`: the two nested loops over the messages and over
each message's `GetSigners()`, started from the nil slice and the empty map. -/
def resolveSigners (env : Env) (msgs : List Msg) : List AccAddress :=
  (msgs.foldl (fun st msg => msg.GetSigners.foldl (signerStep env) st) ([], [])).1

/-- Lines 67-78 of `DefaultTxDecoder`: the loop over the signer infos, from index `i`,
the state being `pubKeys` (filled up to `i`) and `signerInfoMap`. Every signer info has
its public key present here; `signerInfoLoopWire` has the loop on signer infos that may
omit it. -/
def signerInfoLoop (env : Env) (signers : List AccAddress) :
    Nat → List SignerInfo → List PubKey × GoMap SignerInfo →
      Except Error (List PubKey × GoMap SignerInfo)
  | _, [], st => .ok st
  | i, si :: rest, st =>
    match si.PublicKey.GetCachedValue with
    | .pubKey pubKey =>
      signerInfoLoop env signers (i + 1) rest
        (st.1 ++ [pubKey],
          if h : i < signers.length then st.2.set (env.addrString signers[i]) si
          else st.2)
    | _ => .error (.errorf ("can\x27t decode PublicKey from " ++ env.formatAny si.PublicKey))

/-- Variable `DefaultTxDecoder`, on transactions whose body, auth-info and public keys
are present after `Unmarshal`: these are the runs on which the code returns, with a
decoded transaction or an error. `DefaultTxDecoderWire` has the runs on encodings that
omit a sub-message. -/
def DefaultTxDecoder (env : Env) (txBytes : Bytes) : Except Error DecodedTx :=
  match env.unmarshalTxRaw txBytes with
  | .error err => .error err
  | .ok raw =>
    match env.unmarshalTx txBytes with
    | .error err => .error err
    | .ok tx =>
      match decodeMsgs env tx.Body.Messages with
      | .error err => .error err
      | .ok msgs =>
        let signers := resolveSigners env msgs
        match signerInfoLoop env signers 0 tx.AuthInfo.SignerInfos ([], []) with
        | .error err => .error err
        | .ok (pubKeys, signerInfoMap) =>
          .ok {
            Tx := tx
            Raw := raw
            Msgs := msgs
            PubKeys := pubKeys
            Signers := signers
            SignerInfoMap := signerInfoMap }

/-! ## Methods of `DecodedTx` -/

/-- Method `DecodedTx.GetMsgs`. -/
def DecodedTx.GetMsgs (d : DecodedTx) : List Msg := d.Msgs

/-- Method `DecodedTx.GetSigners`. -/
def DecodedTx.GetSigners (d : DecodedTx) : List AccAddress := d.Signers

/-- Method `DecodedTx.GetPubKeys`. -/
def DecodedTx.GetPubKeys (d : DecodedTx) : List PubKey := d.PubKeys

/-- Method `DecodedTx.GetGas`, on a transaction whose fee is present;
`WireDecodedTx.GetGas` has the nil fee. -/
def DecodedTx.GetGas (d : DecodedTx) : Nat := d.Tx.AuthInfo.Fee.GasLimit

/-- Method `DecodedTx.GetFee`, on a transaction whose fee is present;
`WireDecodedTx.GetFee` has the nil fee. -/
def DecodedTx.GetFee (d : DecodedTx) : Coins := d.Tx.AuthInfo.Fee.Amount

/-- Method `DecodedTx.GetMemo`. -/
def DecodedTx.GetMemo (d : DecodedTx) : String := d.Tx.Body.Memo

/-- Method `DecodedTx.ValidateBasic`, on a transaction whose fee is present; `.ok ()` is
the nil error. `WireDecodedTx.ValidateBasic` has the nil fee. -/
def DecodedTx.ValidateBasic (env : Env) (d : DecodedTx) : Except Error Unit :=
  let sigs := d.Tx.Signatures
  if d.GetGas > env.MaxGasWanted then
    .error (.wrapped .ErrInvalidRequest)
  else if Coins.IsAnyNegative d.GetFee then
    .error (.wrapped .ErrInsufficientFee)
  else if sigs.length = 0 then
    .error (.registered .ErrNoSignatures)
  else if sigs.length ≠ d.GetSigners.length then
    .error (.wrapped .ErrUnauthorized)
  else
    .ok ()

/-- Function `DirectSignBytes`. -/
def DirectSignBytes (env : Env) (bodyBz authInfoBz : Bytes) (chainID : String)
    (accnum sequence : Nat) : Except Error Bytes :=
  let signDoc : SignDocRaw := {
    BodyBytes := bodyBz
    AuthInfoBytes := authInfoBz
    ChainId := chainID
    AccountNumber := accnum
    AccountSequence := sequence }
  env.marshalSignDocRaw signDoc

/-- Method `DecodedTx.GetSignBytes`, on signer infos whose mode info is present and a
transaction whose fee is present; `WireDecodedTx.GetSignBytes` has the nil mode info and
the nil fee. -/
def DecodedTx.GetSignBytes (env : Env) (d : DecodedTx) (ctx : Context) (acc : Account) :
    Except Error Bytes :=
  let address := acc.GetAddress
  match d.SignerInfoMap.get (env.addrString address) with
  | none => .error (.errorf ("missing SignerInfo for address " ++ env.addrString address))
  | some signerInfo =>
    let genesis : Bool := decide (ctx.BlockHeight = 0)
    let chainID := ctx.ChainID
    let accNum : Nat := if !genesis then acc.GetAccountNumber else 0
    match signerInfo.ModeInfo.Sum with
    | .Single mode =>
      match mode with
      | .SIGN_MODE_UNSPECIFIED => .error (.errorf "unspecified sign mode")
      | .SIGN_MODE_DIRECT =>
        DirectSignBytes env d.Raw.BodyBytes d.Raw.AuthInfoBytes chainID accNum acc.GetSequence
      | .SIGN_MODE_TEXTUAL => .error (.errorf "SIGN_MODE_TEXTUAL is not supported yet")
      | .SIGN_MODE_LEGACY_AMINO_JSON =>
        .ok (env.StdSignBytes chainID accNum acc.GetSequence
          { Amount := d.GetFee, Gas := d.GetGas } d.Msgs d.Tx.Body.Memo)
      | .unknown _ => .error (.errorf "unexpected")
    | .Multi _ => .error (.errorf "multisig mode info is not supported by GetSignBytes")
    | .unset => .error (.errorf "unexpected ModeInfo")

/-- Method `DecodedTx.FeePayer`: the first signer, or the empty address when `Signers`
is nil. -/
def DecodedTx.FeePayer (d : DecodedTx) : AccAddress :=
  match d.GetSigners with
  | signer :: _ => signer
  | [] => []

/-! ## Reference definitions used to state the properties -/

/-- A list with every element after its first occurrence removed: the head is kept and
deleted from what the tail keeps. -/
def firstOccurrences {α : Type} [DecidableEq α] : List α → List α
  | [] => []
  | a :: l => a :: (firstOccurrences l).filter fun b => decide (b ≠ a)

/-- The same, two elements counting as equal when their keys are. -/
def firstOccurrencesBy {α κ : Type} [DecidableEq κ] (key : α → κ) : List α → List α
  | [] => []
  | a :: l => a :: (firstOccurrencesBy key l).filter fun b => decide (key b ≠ key a)

/-- Every signer required by the messages, in message order then per-message order. -/
def requiredSigners (msgs : List Msg) : List AccAddress :=
  (msgs.map Msg.GetSigners).flatten

/-- A stand-in for the library with a fixed wire content: every buffer but the empty one
decodes to `raw` and `tx`, an address is rendered as one character per byte, a sign
document is laid out as its two byte ranges followed by the chain id length, the account
number and the sequence, and the legacy sign bytes as five numbers followed by the sign
bytes of the messages. -/
def sampleEnv (raw : TxRaw) (tx : Tx) : Env where
  addrString := fun a => String.mk (a.map Char.ofNat)
  unmarshalTxRaw := fun bz => if bz = [] then .error (.external "EOF") else .ok raw
  unmarshalTx := fun bz => if bz = [] then .error (.external "EOF") else .ok tx
  formatAny := fun a => a.TypeUrl
  MaxGasWanted := 2 ^ 63 - 1
  marshalSignDocRaw := fun doc =>
    .ok (doc.BodyBytes ++ doc.AuthInfoBytes ++ doc.ChainId.length :: doc.AccountNumber ::
      [doc.AccountSequence])
  StdSignBytes := fun chainID accnum sequence fee msgs memo =>
    chainID.length :: accnum :: sequence :: fee.Gas :: memo.length ::
      (msgs.map Msg.GetSignBytes).flatten

/-- Loop invariant of lines 51-61: `seen` marks exactly the strings of the addresses
already appended to `signers`. -/
def SeenInv (env : Env) (st : List AccAddress × GoMap Bool) : Prop :=
  ∀ k : String, (st.2.get k).getD false = true ↔ k ∈ st.1.map env.addrString

/-- A body message holding a test message with the given signers. -/
def sampleMsgAny (signers : List AccAddress) : Any where
  TypeUrl := "/testdata.TestMsg"
  Value := signers.flatten
  cachedValue := .msg { GetSigners := signers, GetSignBytes := signers.flatten }

/-- A declared public key. -/
def sampleKeyAny (n : Nat) : Any where
  TypeUrl := "/crypto.PubKey"
  Value := [n]
  cachedValue := .pubKey { bytes := [n] }

/-- A signer info declaring key `n` and the single mode `mode`. -/
def sampleSignerInfo (n : Nat) (mode : SignMode) : SignerInfo where
  PublicKey := sampleKeyAny n
  ModeInfo := { Sum := .Single mode }

/-- Raw byte ranges of the sample transaction. -/
def sampleRaw : TxRaw where
  BodyBytes := [10, 11]
  AuthInfoBytes := [20]
  Signatures := [[7], [8], [9]]

/-- A transaction with two messages requiring the signers `[1],[2]` and `[2],[1],[3]`,
two signer infos (Direct, then Legacy-Amino-JSON) and three signatures. -/
def sampleTx : Tx where
  Body := {
    Messages := [sampleMsgAny [[1], [2]], sampleMsgAny [[2], [1], [3]]]
    Memo := "memo" }
  AuthInfo := {
    SignerInfos := [sampleSignerInfo 101 .SIGN_MODE_DIRECT,
      sampleSignerInfo 102 .SIGN_MODE_LEGACY_AMINO_JSON]
    Fee := { Amount := [{ Denom := "atom", Amount := 50 }], GasLimit := 200000 } }
  Signatures := [[7], [8], [9]]

/-- The library stand-in serving the sample transaction. -/
def sampleLib : Env := sampleEnv sampleRaw sampleTx

/-- What the decoder returns on the sample transaction. -/
def sampleDecoded : DecodedTx where
  Tx := sampleTx
  Raw := sampleRaw
  Msgs := [{ GetSigners := [[1], [2]], GetSignBytes := [1, 2] },
    { GetSigners := [[2], [1], [3]], GetSignBytes := [2, 1, 3] }]
  PubKeys := [{ bytes := [101] }, { bytes := [102] }]
  Signers := [[1], [2], [3]]
  SignerInfoMap := [(sampleLib.addrString [1], sampleSignerInfo 101 .SIGN_MODE_DIRECT),
    (sampleLib.addrString [2], sampleSignerInfo 102 .SIGN_MODE_LEGACY_AMINO_JSON)]

/-- The decoded sample transaction with another gas limit, fee amount and signature
list. -/
def sampleWith (gas : Nat) (fee : Int) (sigs : List Bytes) : DecodedTx :=
  { sampleDecoded with
    Tx := {
      Body := sampleTx.Body
      AuthInfo := {
        SignerInfos := sampleTx.AuthInfo.SignerInfos
        Fee := { Amount := [{ Denom := "atom", Amount := fee }], GasLimit := gas } }
      Signatures := sigs } }

/-- Context of the block at the given height on the test chain. -/
def sampleCtx (height : Int) : Context where
  BlockHeight := height
  ChainID := "test-chain"

/-- An account at the given address with account number 9 and sequence 4. -/
def sampleAccount (addr : AccAddress) : Account where
  GetAddress := addr
  GetAccountNumber := 9
  GetSequence := 4

/-- A decoded transaction whose map holds one signer info per way of declaring a mode:
textual under `[1]`, multi-signer under `[2]`, unspecified under `[3]`, no mode set
under `[4]` and an unknown single mode under `[5]`; the address `[6]` has no entry. -/
def sampleModes : DecodedTx :=
  { sampleDecoded with
    SignerInfoMap := [
      (sampleLib.addrString [1], sampleSignerInfo 101 .SIGN_MODE_TEXTUAL),
      (sampleLib.addrString [2],
        { PublicKey := sampleKeyAny 102, ModeInfo := { Sum := .Multi [1, 1] } }),
      (sampleLib.addrString [3], sampleSignerInfo 103 .SIGN_MODE_UNSPECIFIED),
      (sampleLib.addrString [4], { PublicKey := sampleKeyAny 104, ModeInfo := { Sum := .unset } }),
      (sampleLib.addrString [5], sampleSignerInfo 105 (.unknown 9))] }

/-- A transaction with two messages that both require the single signer `[7]`, one
Direct signer info and one signature. -/
def singleSignerTx : Tx where
  Body := { Messages := [sampleMsgAny [[7]], sampleMsgAny [[7]]], Memo := "" }
  AuthInfo := {
    SignerInfos := [sampleSignerInfo 107 .SIGN_MODE_DIRECT]
    Fee := { Amount := [{ Denom := "atom", Amount := 50 }], GasLimit := 200000 } }
  Signatures := [[7]]

/-- The library stand-in serving the single-signer transaction. -/
def singleSignerLib : Env := sampleEnv sampleRaw singleSignerTx

/-- What the decoder returns on the single-signer transaction. -/
def singleSignerDecoded : DecodedTx where
  Tx := singleSignerTx
  Raw := sampleRaw
  Msgs := [{ GetSigners := [[7]], GetSignBytes := [7] },
    { GetSigners := [[7]], GetSignBytes := [7] }]
  PubKeys := [{ bytes := [107] }]
  Signers := [[7]]
  SignerInfoMap := [(singleSignerLib.addrString [7], sampleSignerInfo 107 .SIGN_MODE_DIRECT)]

/-- The sample transaction declaring the payer `[9]`, who is none of its signers. -/
def payerTx : Tx where
  Body := sampleTx.Body
  AuthInfo := {
    SignerInfos := sampleTx.AuthInfo.SignerInfos
    Fee := { Amount := [{ Denom := "atom", Amount := 50 }], GasLimit := 200000, Payer := [9] } }
  Signatures := sampleTx.Signatures

/-- The library stand-in serving the transaction with a declared payer. -/
def payerLib : Env := sampleEnv sampleRaw payerTx

/-- What the decoder returns on the transaction with a declared payer. -/
def payerDecoded : DecodedTx := { sampleDecoded with Tx := payerTx }

/-! ## The decoder on encodings that omit a sub-message

The declaration of `sdk.Tx` is outside this file. Go code generated from a protobuf
description holds a sub-message by pointer unless told otherwise, and this is the
convention visible in the source: the elements of `SignerInfos` are stored as they are
in a `map[string]*sdk.SignerInfo`. Under this convention `Unmarshal` leaves `Body` and
`AuthInfo` nil when the encoding omits them, and the selections `tx.Body.Messages` and
`tx.AuthInfo.SignerInfos` abort on a nil pointer. The definitions below make the two
pointers explicit; everything else is as in `DefaultTxDecoder`. -/

/-- End of a Go call that either returns a value, returns an error, or aborts with a
run-time panic. -/
inductive Outcome (α : Type) where
  | ok (value : α)
  | error (err : Error)
  | abort
deriving DecidableEq, Repr

/-- The outcome of a call that does not abort. -/
def Outcome.ofExcept {α : Type} : Except Error α → Outcome α
  | .ok value => .ok value
  | .error err => .error err

/-- Message `sdk.Tx` with its two sub-messages held by pointer: `none` is the nil
pointer left by `Unmarshal` for a sub-message that the encoding omits. -/
structure TxPointers where
  Body : Option TxBody
  AuthInfo : Option AuthInfo
  Signatures : List Bytes
deriving DecidableEq, Repr

/-- Variable `DefaultTxDecoder`, with the structured transaction held as `TxPointers`:
`tx.Body.Messages` (line 41) and `tx.AuthInfo.SignerInfos` (line 64) abort when the
pointer they select from is nil. -/
def DefaultTxDecoderPointers (env : Env) (unmarshalTx : Bytes → Except Error TxPointers)
    (txBytes : Bytes) : Outcome DecodedTx :=
  match env.unmarshalTxRaw txBytes with
  | .error err => .error err
  | .ok raw =>
    match unmarshalTx txBytes with
    | .error err => .error err
    | .ok tx =>
      match tx.Body with
      | none => .abort
      | some body =>
        match decodeMsgs env body.Messages with
        | .error err => .error err
        | .ok msgs =>
          let signers := resolveSigners env msgs
          match tx.AuthInfo with
          | none => .abort
          | some authInfo =>
            match signerInfoLoop env signers 0 authInfo.SignerInfos ([], []) with
            | .error err => .error err
            | .ok (pubKeys, signerInfoMap) =>
              .ok {
                Tx := { Body := body, AuthInfo := authInfo, Signatures := tx.Signatures }
                Raw := raw
                Msgs := msgs
                PubKeys := pubKeys
                Signers := signers
                SignerInfoMap := signerInfoMap }

/-- A stand-in for protobuf unmarshalling of the raw transaction: the empty buffer is a
valid encoding, with every field empty. -/
def protoUnmarshalTxRaw (txBytes : Bytes) : Except Error TxRaw :=
  if txBytes = [] then .ok { BodyBytes := [], AuthInfoBytes := [], Signatures := [] }
  else .ok sampleRaw

/-- A stand-in for protobuf unmarshalling of the structured transaction: the empty
buffer is a valid encoding that omits body and auth-info, the buffer `[2]` encodes the
sample body and omits the auth-info, any other buffer is the sample transaction. -/
def protoUnmarshalTx (txBytes : Bytes) : Except Error TxPointers :=
  if txBytes = [] then .ok { Body := none, AuthInfo := none, Signatures := [] }
  else if txBytes = [2] then
    .ok { Body := some sampleTx.Body, AuthInfo := none, Signatures := [] }
  else
    .ok {
      Body := some sampleTx.Body
      AuthInfo := some sampleTx.AuthInfo
      Signatures := sampleTx.Signatures }

/-- The library stand-in with the protobuf-like raw unmarshalling. -/
def protoLib : Env := { sampleLib with unmarshalTxRaw := protoUnmarshalTxRaw }

/-! ## The ante handler of `fee_test.go` -/

/-- The decorators built in `newAnteHandler`, each named after its constructor
(`NewSetUpContextDecorator`, `NewMempoolFeeDecorator`, and so on). -/
inductive AnteStage where
  | SetUpContext
  | MempoolFee
  | ValidateBasic
  | ValidateMemo
  | ConsumeGasForTxSize
  | DeductGrantedFee
  | SetPubKey
  | ValidateSigCount
  | SigGasConsume
  | SigVerification
  | IncrementSequence
deriving DecidableEq, Repr

/-- Type `sdk.AnteHandler`: from a context `σ`, a transaction `τ` and the simulate flag
to the new context or an error. -/
abbrev AnteHandler (σ τ : Type) := σ → τ → Bool → Except Error σ

/-- Interface `sdk.AnteDecorator`: the method `AnteHandle(ctx, tx, simulate, next)`. -/
abbrev AnteDecorator (σ τ : Type) := σ → τ → Bool → AnteHandler σ τ → Except Error σ

/-- Modelled from the spec: `sdk.ChainAnteDecorators` is library code outside this file.
Section 4.4 of the spec: composition builds one callable from an ordered list, each
decorator receives the rest of the chain and decides whether to invoke it; the chain
that is left after the last decorator accepts the transaction. -/
def ChainAnteDecorators {σ τ : Type} : List (AnteDecorator σ τ) → AnteHandler σ τ
  | [] => fun ctx _ _ => .ok ctx
  | decorator :: rest => fun ctx tx simulate =>
    decorator ctx tx simulate (ChainAnteDecorators rest)

/-- Function `newAnteHandler` of `fee_test.go`. The constructors are library code:
`decorators` gives the decorator that each constructor call returns for the keepers and
handlers passed to `newAnteHandler`. -/
def newAnteHandler {σ τ : Type} (decorators : AnteStage → AnteDecorator σ τ) :
    AnteHandler σ τ :=
  ChainAnteDecorators [
    decorators .SetUpContext,
    decorators .MempoolFee,
    decorators .ValidateBasic,
    decorators .ValidateMemo,
    decorators .ConsumeGasForTxSize,
    decorators .DeductGrantedFee,
    decorators .SetPubKey,
    decorators .ValidateSigCount,
    decorators .SigGasConsume,
    decorators .SigVerification,
    decorators .IncrementSequence]

/-- The canonical order of the stages, as the spec lists it. -/
def canonicalStages : List AnteStage :=
  [.SetUpContext, .MempoolFee, .ValidateBasic, .ValidateMemo, .ConsumeGasForTxSize,
    .DeductGrantedFee, .SetPubKey, .ValidateSigCount, .SigGasConsume, .SigVerification,
    .IncrementSequence]

/-- A decorator that records its stage in the context, a list of the stages run so far,
and hands over to the rest of the chain. -/
def recordingDecorator (stage : AnteStage) : AnteDecorator (List AnteStage) Unit :=
  fun ran tx simulate next => next (ran ++ [stage]) tx simulate

/-! ## Fee allowances and fee deduction

The fee allowance keeper and `DeductGrantedFeeDecorator` are outside this file; only
their test `TestDeductFeesNoDelegation` is in it. They are modelled from sections 3, 4.5
and 6 of the spec. Amounts live in a type `A` of non-negative quantities with truncated
subtraction: `Nat` for the amount of one denomination, or any collection of such amounts
per denomination. -/

/-- Modelled from the spec: the fee allowance record of the feegrant keeper, which is
outside this file. Section 3: a spend limit, a non-negative amount or unlimited (`none`),
and an optional expiration, an absolute time. -/
structure FeeAllowance (A : Type) where
  SpendLimit : Option A
  Expiration : Option Nat
deriving DecidableEq, Repr

/-- Modelled from the spec: the failures of fee deduction in the taxonomy of section 7;
the keeper and the decorator that return them are outside this file. -/
inductive FeeError where
  | NoAllowance
  | AllowanceExceeded
  | InsufficientFunds
deriving DecidableEq, Repr

/-- Modelled from the spec: the stores of section 6 that fee deduction reads and writes,
which are outside this file: the accounts that exist, the balance of every address, and
at most one allowance for every pair of granter and grantee. -/
structure FeeStores (A : Type) where
  accountExists : AccAddress → Bool
  balance : AccAddress → A
  allowance : AccAddress → AccAddress → Option (FeeAllowance A)

/-- Modelled from the spec: `Get(granter, grantee)` of section 6; the keeper is outside
this file. An allowance past its expiration is treated as absent (section 3). -/
def FeeStores.Get {A : Type} (st : FeeStores A) (granter grantee : AccAddress) (now : Nat) :
    Option (FeeAllowance A) :=
  match st.allowance granter grantee with
  | none => none
  | some a =>
    match a.Expiration with
    | none => some a
    | some expiration => if expiration < now then none else some a

/-- Modelled from the spec: writing or deleting the one allowance record of a pair of
granter and grantee (`Grant` and `Revoke` of section 6; the keeper is outside this
file). -/
def FeeStores.setAllowance {A : Type} (st : FeeStores A) (granter grantee : AccAddress)
    (a : Option (FeeAllowance A)) : FeeStores A :=
  { st with
    allowance := fun g e => if g = granter ∧ e = grantee then a else st.allowance g e }

/-- Modelled from the spec: `UseAllowance(granter, grantee, amount)` of section 6; the
keeper is outside this file. Section 4.5: no allowance if none exists or it has expired,
allowance exceeded if the amount exceeds the remaining spend limit, otherwise the
remaining limit is decremented by the amount and the record is deleted if it reaches
exactly zero. -/
def UseAllowance {A : Type} [LE A] [∀ a b : A, Decidable (a ≤ b)] [Sub A] [Zero A]
    [DecidableEq A] (st : FeeStores A) (granter grantee : AccAddress) (amount : A)
    (now : Nat) : Except FeeError (FeeStores A) :=
  match st.Get granter grantee now with
  | none => .error .NoAllowance
  | some a =>
    match a.SpendLimit with
    | none => .ok st
    | some limit =>
      if amount ≤ limit then
        if limit - amount = 0 then .ok (st.setAllowance granter grantee none)
        else
          .ok (st.setAllowance granter grantee
            (some { SpendLimit := some (limit - amount), Expiration := a.Expiration }))
      else .error .AllowanceExceeded

/-- Modelled from the spec: deducting a fee from the balance of the fee payer
(`GetAccount` and `SubtractBalance` of section 6; the keepers are outside this file).
Section 4.5: it fails if the balance is insufficient, or if the payer account does not
exist and the fee is greater than zero; a zero fee needs no deduction and passes also for
a payer without an account, whose rejection the spec leaves to later decorators. The
spec names no failure of its own for the missing account; it is reported as
`InsufficientFunds`, the failure of the taxonomy for a payer who cannot cover the fee. -/
def DeductFees {A : Type} [LE A] [∀ a b : A, Decidable (a ≤ b)] [Sub A] [Zero A]
    [DecidableEq A] (st : FeeStores A) (payer : AccAddress) (fee : A) :
    Except FeeError (FeeStores A) :=
  if st.accountExists payer = false ∧ fee ≠ 0 then .error .InsufficientFunds
  else if fee ≤ st.balance payer then
    .ok { st with
      balance := fun addr => if addr = payer then st.balance payer - fee else st.balance addr }
  else .error .InsufficientFunds

/-- Modelled from the spec: the fee deduction decorator `DeductGrantedFeeDecorator`,
which is outside this file. Section 4.5: the payer is the declared payer or, if absent,
the first signer; a payer equal to the first signer pays from its own balance; another
payer must have granted the signer an allowance, which is used, and then pays from its
balance. A failure leaves the stores as they were (all or nothing); the result is the
stores after the call and the failure, if any. -/
def DeductGrantedFee {A : Type} [LE A] [∀ a b : A, Decidable (a ≤ b)] [Sub A] [Zero A]
    [DecidableEq A] (st : FeeStores A) (now : Nat) (firstSigner : AccAddress)
    (declaredPayer : Option AccAddress) (fee : A) : FeeStores A × Option FeeError :=
  let payer := declaredPayer.getD firstSigner
  if payer = firstSigner then
    match DeductFees st payer fee with
    | .ok st1 => (st1, none)
    | .error err => (st, some err)
  else
    match UseAllowance st payer firstSigner fee now with
    | .error err => (st, some err)
    | .ok st1 =>
      match DeductFees st1 payer fee with
      | .ok st2 => (st2, none)
      | .error err => (st, some err)

/-- The stores set up by `TestDeductFeesNoDelegation`, in atom: the account `[1]` holds
10, the account `[2]` holds 99999, the addresses `[3]` and `[4]` have no account, and
`[2]` has granted 500 to `[3]` and 20 to `[4]`. -/
def testStores : FeeStores Nat where
  accountExists := fun addr => decide (addr = [1] ∨ addr = [2])
  balance := fun addr => if addr = [1] then 10 else if addr = [2] then 99999 else 0
  allowance := fun granter grantee =>
    if granter = [2] ∧ grantee = [3] then some { SpendLimit := some 500, Expiration := none }
    else if granter = [2] ∧ grantee = [4] then
      some { SpendLimit := some 20, Expiration := none }
    else none

/-- The stores of the test with the grant that the test leaves commented out: `[1]`,
who holds 10, has granted 500 to `[4]`. -/
def poorGranterStores : FeeStores Nat :=
  testStores.setAllowance [1] [4] (some { SpendLimit := some 500, Expiration := none })

/-- A transaction whose only message requires no signer, with no signer info and no
signature. -/
def noSignerTx : Tx where
  Body := { Messages := [sampleMsgAny []], Memo := "" }
  AuthInfo := {
    SignerInfos := []
    Fee := { Amount := [], GasLimit := 200000 } }
  Signatures := []

/-- The library stand-in serving the transaction without signers. -/
def noSignerLib : Env := sampleEnv sampleRaw noSignerTx

/-- What the decoder returns on the transaction without signers. -/
def noSignerDecoded : DecodedTx where
  Tx := noSignerTx
  Raw := sampleRaw
  Msgs := [{ GetSigners := [], GetSignBytes := [] }]
  PubKeys := []
  Signers := []
  SignerInfoMap := []

/-- A transaction with one message requiring the signer `[7]` and two signer infos. -/
def extraInfoTx : Tx where
  Body := { Messages := [sampleMsgAny [[7]]], Memo := "" }
  AuthInfo := {
    SignerInfos := [sampleSignerInfo 107 .SIGN_MODE_DIRECT,
      sampleSignerInfo 108 .SIGN_MODE_DIRECT]
    Fee := { Amount := [], GasLimit := 200000 } }
  Signatures := [[7]]

/-- The library stand-in serving the transaction with a spare signer info. -/
def extraInfoLib : Env := sampleEnv sampleRaw extraInfoTx

/-- What the decoder returns on the transaction with a spare signer info. -/
def extraInfoDecoded : DecodedTx where
  Tx := extraInfoTx
  Raw := sampleRaw
  Msgs := [{ GetSigners := [[7]], GetSignBytes := [7] }]
  PubKeys := [{ bytes := [107] }, { bytes := [108] }]
  Signers := [[7]]
  SignerInfoMap := [(extraInfoLib.addrString [7], sampleSignerInfo 107 .SIGN_MODE_DIRECT)]

/-! ## The signer slice and its nil value -/

/-- A Go slice as far as nil matters: `none` is the nil slice, `some l` a slice that is
not nil and holds the elements `l`, possibly none. -/
abbrev Slice (α : Type) := Option (List α)

/-- Built-in `append(s, x)`: the result is never nil. -/
def Slice.append {α : Type} (s : Slice α) (x : α) : Slice α :=
  some (s.getD [] ++ [x])

/-- The elements of a slice; the nil slice has none. -/
def Slice.toList {α : Type} (s : Slice α) : List α :=
  s.getD []

/-- Body of the inner loop at lines 55-60, with `signers` as a slice that starts nil. -/
def signerStepSlice (env : Env) (st : Slice AccAddress × GoMap Bool) (addr : AccAddress) :
    Slice AccAddress × GoMap Bool :=
  if (st.2.get (env.addrString addr)).getD false = false then
    (st.1.append addr, st.2.set (env.addrString addr) true)
  else st

/-- Lines 51-61 of `DefaultTxDecoder`, from `var signers []sdk.AccAddress`, the nil
slice. -/
def resolveSignersSlice (env : Env) (msgs : List Msg) : Slice AccAddress :=
  (msgs.foldl (fun st msg => msg.GetSigners.foldl (signerStepSlice env) st) (none, [])).1

/-- Method `DecodedTx.FeePayer` on the signer slice: `signers[0]` is evaluated whenever
the slice is not nil and aborts if it is empty. -/
def FeePayerOfSlice (signers : Slice AccAddress) : Outcome AccAddress :=
  match signers with
  | none => .ok []
  | some [] => .abort
  | some (signer :: _) => .ok signer

/-- How the signer slice and the signer list of the embedding correspond: same seen map,
same elements, and the slice is nil exactly when the list is empty. -/
def SliceRel (ss : Slice AccAddress × GoMap Bool) (s : List AccAddress × GoMap Bool) : Prop :=
  ss.2 = s.2 ∧ ss.1.toList = s.1 ∧ (ss.1 = none ↔ s.1 = [])

/-! ## Every sub-message held by pointer

`DecodedTx`, `DefaultTxDecoder`, `ValidateBasic` and `GetSignBytes` above describe the
code on transactions all of whose sub-messages are present. The generated messages hold
their sub-messages by pointer, and `tx.go` selects from `tx.Body`, `tx.AuthInfo`,
`si.PublicKey`, `signerInfo.ModeInfo` and `d.AuthInfo.Fee` without a nil check. The
definitions below keep every one of these pointers, `none` being the nil pointer that
`Unmarshal` leaves for a sub-message the encoding omits, and abort where the code
dereferences it; `toWire` embeds the transactions above, on which both descriptions
agree. -/

/-- Sequencing of Go calls: the first call that returns an error or aborts ends the
run. -/
def Outcome.bind {α β : Type} (x : Outcome α) (f : α → Outcome β) : Outcome β :=
  match x with
  | .ok value => f value
  | .error err => .error err
  | .abort => .abort

/-- The outcome with a function applied to the returned value. -/
def Outcome.map {α β : Type} (f : α → β) : Outcome α → Outcome β
  | .ok value => .ok (f value)
  | .error err => .error err
  | .abort => .abort

/-- Message `sdk.SignerInfo` with `PublicKey` (a `*Any`) and `ModeInfo` (a `*ModeInfo`)
held by pointer. -/
structure WireSignerInfo where
  PublicKey : Option Any
  ModeInfo : Option ModeInfo
deriving DecidableEq, Repr

/-- Message `sdk.AuthInfo` with `Fee` (a `*Fee`) held by pointer. -/
structure WireAuthInfo where
  SignerInfos : List WireSignerInfo
  Fee : Option Fee
deriving DecidableEq, Repr

/-- Message `sdk.Tx` with `Body` and `AuthInfo` held by pointer. -/
structure WireTx where
  Body : Option TxBody
  AuthInfo : Option WireAuthInfo
  Signatures : List Bytes
deriving DecidableEq, Repr

/-- Struct `DecodedTx` over `WireTx`. -/
structure WireDecodedTx where
  Tx : WireTx
  Raw : TxRaw
  Msgs : List Msg
  PubKeys : List PubKey
  Signers : List AccAddress
  SignerInfoMap : GoMap WireSignerInfo
deriving DecidableEq, Repr

/-- Lines 67-78 of `DefaultTxDecoder` on signer infos held by pointer: `GetCachedValue`
is called on `si.PublicKey` (line 69) and aborts when that pointer is nil. -/
def signerInfoLoopWire (env : Env) (signers : List AccAddress) :
    Nat → List WireSignerInfo → List PubKey × GoMap WireSignerInfo →
      Outcome (List PubKey × GoMap WireSignerInfo)
  | _, [], st => .ok st
  | i, si :: rest, st =>
    match si.PublicKey with
    | none => .abort
    | some any =>
      match any.GetCachedValue with
      | .pubKey pubKey =>
        signerInfoLoopWire env signers (i + 1) rest
          (st.1 ++ [pubKey],
            if h : i < signers.length then st.2.set (env.addrString signers[i]) si
            else st.2)
      | _ => .error (.errorf ("can\x27t decode PublicKey from " ++ env.formatAny any))

/-- Variable `DefaultTxDecoder` on `WireTx`: the selections `tx.Body.Messages` (line 41),
`tx.AuthInfo.SignerInfos` (line 64) and the call on `si.PublicKey` (line 69) abort on a
nil pointer. -/
def DefaultTxDecoderWire (env : Env) (unmarshalTx : Bytes → Except Error WireTx)
    (txBytes : Bytes) : Outcome WireDecodedTx :=
  match env.unmarshalTxRaw txBytes with
  | .error err => .error err
  | .ok raw =>
    match unmarshalTx txBytes with
    | .error err => .error err
    | .ok tx =>
      match tx.Body with
      | none => .abort
      | some body =>
        match decodeMsgs env body.Messages with
        | .error err => .error err
        | .ok msgs =>
          let signers := resolveSigners env msgs
          match tx.AuthInfo with
          | none => .abort
          | some authInfo =>
            match signerInfoLoopWire env signers 0 authInfo.SignerInfos ([], []) with
            | .error err => .error err
            | .abort => .abort
            | .ok (pubKeys, signerInfoMap) =>
              .ok {
                Tx := tx
                Raw := raw
                Msgs := msgs
                PubKeys := pubKeys
                Signers := signers
                SignerInfoMap := signerInfoMap }

/-- Method `DecodedTx.GetSigners` on `WireDecodedTx`. -/
def WireDecodedTx.GetSigners (d : WireDecodedTx) : List AccAddress := d.Signers

/-- Method `DecodedTx.GetGas` on `WireDecodedTx`: `d.AuthInfo.Fee.GasLimit` (line 178)
aborts when `AuthInfo` or `Fee` is nil. -/
def WireDecodedTx.GetGas (d : WireDecodedTx) : Outcome Nat :=
  match d.Tx.AuthInfo with
  | none => .abort
  | some authInfo =>
    match authInfo.Fee with
    | none => .abort
    | some fee => .ok fee.GasLimit

/-- Method `DecodedTx.GetFee` on `WireDecodedTx`: `d.AuthInfo.Fee.Amount` (line 182)
aborts when `AuthInfo` or `Fee` is nil. -/
def WireDecodedTx.GetFee (d : WireDecodedTx) : Outcome Coins :=
  match d.Tx.AuthInfo with
  | none => .abort
  | some authInfo =>
    match authInfo.Fee with
    | none => .abort
    | some fee => .ok fee.Amount

/-- The selection `d.Body.Memo` (lines 155 and 194), which aborts when `Body` is nil. -/
def WireDecodedTx.GetMemo (d : WireDecodedTx) : Outcome String :=
  match d.Tx.Body with
  | none => .abort
  | some body => .ok body.Memo

/-- Method `DecodedTx.ValidateBasic` on `WireDecodedTx`: the first guard calls
`d.GetGas()` (line 97), the second `d.GetFee()` (line 103). -/
def WireDecodedTx.ValidateBasic (env : Env) (d : WireDecodedTx) : Outcome Unit :=
  let sigs := d.Tx.Signatures
  d.GetGas.bind fun gas =>
    if gas > env.MaxGasWanted then
      .error (.wrapped .ErrInvalidRequest)
    else
      d.GetFee.bind fun fee =>
        if Coins.IsAnyNegative fee then
          .error (.wrapped .ErrInsufficientFee)
        else if sigs.length = 0 then
          .error (.registered .ErrNoSignatures)
        else if sigs.length ≠ d.GetSigners.length then
          .error (.wrapped .ErrUnauthorized)
        else
          .ok ()

/-- Method `DecodedTx.GetSignBytes` on `WireDecodedTx`: `signerInfo.ModeInfo.Sum`
(line 144) aborts when the signer info has no mode info, and the arguments
`d.GetFee()`, `d.GetGas()` and `d.Body.Memo` of the legacy branch (line 155) abort when
the fee or the body is nil. -/
def WireDecodedTx.GetSignBytes (env : Env) (d : WireDecodedTx) (ctx : Context)
    (acc : Account) : Outcome Bytes :=
  let address := acc.GetAddress
  match d.SignerInfoMap.get (env.addrString address) with
  | none => .error (.errorf ("missing SignerInfo for address " ++ env.addrString address))
  | some signerInfo =>
    let genesis : Bool := decide (ctx.BlockHeight = 0)
    let chainID := ctx.ChainID
    let accNum : Nat := if !genesis then acc.GetAccountNumber else 0
    match signerInfo.ModeInfo with
    | none => .abort
    | some modeInfo =>
      match modeInfo.Sum with
      | .Single mode =>
        match mode with
        | .SIGN_MODE_UNSPECIFIED => .error (.errorf "unspecified sign mode")
        | .SIGN_MODE_DIRECT =>
          Outcome.ofExcept
            (DirectSignBytes env d.Raw.BodyBytes d.Raw.AuthInfoBytes chainID accNum
              acc.GetSequence)
        | .SIGN_MODE_TEXTUAL => .error (.errorf "SIGN_MODE_TEXTUAL is not supported yet")
        | .SIGN_MODE_LEGACY_AMINO_JSON =>
          d.GetFee.bind fun fee =>
            d.GetGas.bind fun gas =>
              d.GetMemo.bind fun memo =>
                .ok (env.StdSignBytes chainID accNum acc.GetSequence
                  { Amount := fee, Gas := gas } d.Msgs memo)
        | .unknown _ => .error (.errorf "unexpected")
      | .Multi _ => .error (.errorf "multisig mode info is not supported by GetSignBytes")
      | .unset => .error (.errorf "unexpected ModeInfo")

/-- A signer info with both sub-messages present, as a `WireSignerInfo`. -/
def SignerInfo.toWire (si : SignerInfo) : WireSignerInfo where
  PublicKey := some si.PublicKey
  ModeInfo := some si.ModeInfo

/-- An auth-info with all sub-messages present, as a `WireAuthInfo`. -/
def AuthInfo.toWire (authInfo : AuthInfo) : WireAuthInfo where
  SignerInfos := authInfo.SignerInfos.map SignerInfo.toWire
  Fee := some authInfo.Fee

/-- A transaction with all sub-messages present, as a `WireTx`. -/
def Tx.toWire (tx : Tx) : WireTx where
  Body := some tx.Body
  AuthInfo := some tx.AuthInfo.toWire
  Signatures := tx.Signatures

/-- A map with every signer info taken as a `WireSignerInfo`. -/
def GoMap.toWire (m : GoMap SignerInfo) : GoMap WireSignerInfo :=
  m.map fun entry => (entry.1, entry.2.toWire)

/-- A decoded transaction with all sub-messages present, as a `WireDecodedTx`. -/
def DecodedTx.toWire (d : DecodedTx) : WireDecodedTx where
  Tx := d.Tx.toWire
  Raw := d.Raw
  Msgs := d.Msgs
  PubKeys := d.PubKeys
  Signers := d.Signers
  SignerInfoMap := GoMap.toWire d.SignerInfoMap

/-- A stand-in for protobuf unmarshalling of the structured transaction with every
sub-message held by pointer. The empty buffer omits body and auth-info; `[3]` and `[4]`
encode the sample transaction without a fee, with two and with three signatures; `[5]`
has one signer info that omits the mode info; `[6]` has one signer info that omits the
public key; any other buffer is the sample transaction with everything present. -/
def wireUnmarshalTx (txBytes : Bytes) : Except Error WireTx :=
  if txBytes = [] then .ok { Body := none, AuthInfo := none, Signatures := [] }
  else if txBytes = [3] then
    .ok {
      Body := some sampleTx.Body
      AuthInfo := some { SignerInfos := sampleTx.AuthInfo.toWire.SignerInfos, Fee := none }
      Signatures := [[7], [8]] }
  else if txBytes = [4] then
    .ok {
      Body := some sampleTx.Body
      AuthInfo := some { SignerInfos := sampleTx.AuthInfo.toWire.SignerInfos, Fee := none }
      Signatures := [[7], [8], [9]] }
  else if txBytes = [5] then
    .ok {
      Body := some sampleTx.Body
      AuthInfo := some {
        SignerInfos := [{ PublicKey := some (sampleKeyAny 101), ModeInfo := none }]
        Fee := some sampleTx.AuthInfo.Fee }
      Signatures := sampleTx.Signatures }
  else if txBytes = [6] then
    .ok {
      Body := some sampleTx.Body
      AuthInfo := some {
        SignerInfos := [{
          PublicKey := none
          ModeInfo := some { Sum := .Single .SIGN_MODE_DIRECT } }]
        Fee := some sampleTx.AuthInfo.Fee }
      Signatures := sampleTx.Signatures }
  else .ok sampleTx.toWire

/-- What the decoder returns on the sample transaction without a fee and with the given
signatures (the buffers `[3]` and `[4]`): three signers, two signer infos, no fee. -/
def feelessDecoded (sigs : List Bytes) : WireDecodedTx where
  Tx := {
    Body := some sampleTx.Body
    AuthInfo := some { SignerInfos := sampleTx.AuthInfo.toWire.SignerInfos, Fee := none }
    Signatures := sigs }
  Raw := sampleRaw
  Msgs := sampleDecoded.Msgs
  PubKeys := sampleDecoded.PubKeys
  Signers := sampleDecoded.Signers
  SignerInfoMap := GoMap.toWire sampleDecoded.SignerInfoMap

/-- What the decoder returns on the buffer `[5]`: the signer `[1]` has a signer info
without mode info. -/
def modelessDecoded : WireDecodedTx where
  Tx := {
    Body := some sampleTx.Body
    AuthInfo := some {
      SignerInfos := [{ PublicKey := some (sampleKeyAny 101), ModeInfo := none }]
      Fee := some sampleTx.AuthInfo.Fee }
    Signatures := sampleTx.Signatures }
  Raw := sampleRaw
  Msgs := sampleDecoded.Msgs
  PubKeys := [{ bytes := [101] }]
  Signers := sampleDecoded.Signers
  SignerInfoMap := [(protoLib.addrString [1],
    { PublicKey := some (sampleKeyAny 101), ModeInfo := none })]

/-! ## Lemmas on Go maps -/

theorem GoMap.get_set {V : Type} (m : GoMap V) (k k' : String) (v : V) :
    (m.set k v).get k' = if k = k' then some v else m.get k' := by
  induction m with
  | nil => simp [GoMap.set, GoMap.get]
  | cons p m ih =>
    obtain ⟨k0, v0⟩ := p
    by_cases h0 : k0 = k
    · subst h0
      by_cases h1 : k0 = k' <;> simp [GoMap.set, GoMap.get, h1]
    · by_cases h1 : k0 = k'
      · subst h1
        have h2 : ¬ k = k0 := fun h => h0 h.symm
        simp [GoMap.set, GoMap.get, h0, h2]
      · simp [GoMap.set, GoMap.get, h0, h1, ih]

theorem GoMap.get_set_self {V : Type} (m : GoMap V) (k : String) (v : V) :
    (m.set k v).get k = some v := by
  simp [GoMap.get_set]

theorem GoMap.get_set_of_ne {V : Type} (m : GoMap V) {k k' : String} (v : V) (h : k ≠ k') :
    (m.set k v).get k' = m.get k' := by
  simp [GoMap.get_set, h]

/-! ## Lemmas on first occurrences -/

theorem mem_firstOccurrencesBy {α κ : Type} [DecidableEq κ] (key : α → κ) (l : List α)
    (a : α) : a ∈ firstOccurrencesBy key l → a ∈ l := by
  induction l with
  | nil => simp [firstOccurrencesBy]
  | cons b l ih =>
    simp only [firstOccurrencesBy, List.mem_cons, List.mem_filter]
    rintro (h | ⟨h, _⟩)
    · exact Or.inl h
    · exact Or.inr (ih h)

theorem key_mem_firstOccurrencesBy {α κ : Type} [DecidableEq κ] (key : α → κ) (l : List α)
    (a : α) (h : a ∈ l) : key a ∈ (firstOccurrencesBy key l).map key := by
  induction l with
  | nil => simp at h
  | cons b l ih =>
    simp only [firstOccurrencesBy, List.map_cons, List.mem_cons]
    by_cases hk : key a = key b
    · exact Or.inl hk
    · right
      rcases List.mem_cons.mp h with h | h
      · exact absurd (congrArg key h) hk
      · obtain ⟨c, hc, hkc⟩ := List.mem_map.mp (ih h)
        refine List.mem_map.mpr ⟨c, ?_, hkc⟩
        simp only [List.mem_filter, decide_eq_true_eq]
        exact ⟨hc, by rw [hkc]; exact hk⟩

theorem nodup_keys_firstOccurrencesBy {α κ : Type} [DecidableEq κ] (key : α → κ)
    (l : List α) : ((firstOccurrencesBy key l).map key).Nodup := by
  induction l with
  | nil => simp [firstOccurrencesBy]
  | cons b l ih =>
    simp only [firstOccurrencesBy, List.map_cons, List.nodup_cons]
    constructor
    · intro h
      obtain ⟨c, hc, hkc⟩ := List.mem_map.mp h
      simp only [List.mem_filter, decide_eq_true_eq] at hc
      exact hc.2 hkc
    · exact (ih.sublist ((List.filter_sublist _).map key))

theorem firstOccurrencesBy_eq_of_injOn {α κ : Type} [DecidableEq α] [DecidableEq κ]
    (key : α → κ) (l : List α)
    (hinj : ∀ a ∈ l, ∀ b ∈ l, key a = key b → a = b) :
    firstOccurrencesBy key l = firstOccurrences l := by
  induction l with
  | nil => rfl
  | cons b l ih =>
    have ih1 := ih (fun x hx y hy => hinj x (List.mem_cons_of_mem _ hx) y
      (List.mem_cons_of_mem _ hy))
    simp only [firstOccurrencesBy, firstOccurrences, ih1]
    congr 1
    apply List.filter_congr
    intro x hx
    have hxl : x ∈ l := by
      rw [← ih1] at hx
      exact mem_firstOccurrencesBy key l x hx
    have : key x = key b ↔ x = b :=
      ⟨hinj x (List.mem_cons_of_mem _ hxl) b (List.mem_cons_self _ _), fun h => by rw [h]⟩
    simp [this]

theorem mem_firstOccurrences {α : Type} [DecidableEq α] (l : List α) (a : α) :
    a ∈ firstOccurrences l ↔ a ∈ l := by
  induction l with
  | nil => simp [firstOccurrences]
  | cons b l ih =>
    simp only [firstOccurrences, List.mem_cons, List.mem_filter, decide_eq_true_eq, ih]
    constructor
    · rintro (h | ⟨h, _⟩)
      · exact Or.inl h
      · exact Or.inr h
    · rintro (h | h)
      · exact Or.inl h
      · by_cases hab : a = b
        · exact Or.inl hab
        · exact Or.inr ⟨h, hab⟩

theorem nodup_firstOccurrences {α : Type} [DecidableEq α] (l : List α) :
    (firstOccurrences l).Nodup := by
  induction l with
  | nil => simp [firstOccurrences]
  | cons b l ih =>
    simp only [firstOccurrences, List.nodup_cons, List.mem_filter, decide_eq_true_eq]
    exact ⟨fun h => h.2 rfl, ih.sublist (List.filter_sublist _)⟩

/-! ## The signer loop -/

theorem seenInv_init (env : Env) : SeenInv env ([], []) := by
  intro k
  simp [GoMap.get]

theorem signerStep_of_seen (env : Env) (st : List AccAddress × GoMap Bool) (a : AccAddress)
    (hinv : SeenInv env st) (h : env.addrString a ∈ st.1.map env.addrString) :
    signerStep env st a = st := by
  have := (hinv (env.addrString a)).mpr h
  simp [signerStep, this]

theorem signerStep_of_not_seen (env : Env) (st : List AccAddress × GoMap Bool)
    (a : AccAddress) (hinv : SeenInv env st)
    (h : env.addrString a ∉ st.1.map env.addrString) :
    signerStep env st a = (st.1 ++ [a], st.2.set (env.addrString a) true) := by
  have h1 : ¬ (st.2.get (env.addrString a)).getD false = true :=
    fun hc => h ((hinv (env.addrString a)).mp hc)
  have h2 : (st.2.get (env.addrString a)).getD false = false := by
    simpa using h1
  simp [signerStep, h2]

theorem signerStep_inv (env : Env) (st : List AccAddress × GoMap Bool) (a : AccAddress)
    (hinv : SeenInv env st) : SeenInv env (signerStep env st a) := by
  by_cases h : env.addrString a ∈ st.1.map env.addrString
  · rw [signerStep_of_seen env st a hinv h]
    exact hinv
  · rw [signerStep_of_not_seen env st a hinv h]
    intro k
    have hk := hinv k
    by_cases hka : env.addrString a = k
    · subst hka
      simp [GoMap.get_set]
    · have hka2 : ¬ k = env.addrString a := fun hc => hka hc.symm
      simp only [GoMap.get_set, hka, if_false, List.map_append, List.map_cons, List.map_nil,
        List.mem_append, List.mem_singleton, hka2, or_false]
      exact hk

theorem foldl_signerStep (env : Env) (l : List AccAddress) :
    ∀ st : List AccAddress × GoMap Bool, SeenInv env st →
      (l.foldl (signerStep env) st).1 =
          st.1 ++ (firstOccurrencesBy env.addrString l).filter
            (fun b => decide (env.addrString b ∉ st.1.map env.addrString)) ∧
        SeenInv env (l.foldl (signerStep env) st) := by
  induction l with
  | nil =>
    intro st hinv
    simp [firstOccurrencesBy, hinv]
  | cons a l ih =>
    intro st hinv
    rw [List.foldl_cons]
    obtain ⟨ih1, ih2⟩ := ih (signerStep env st a) (signerStep_inv env st a hinv)
    refine ⟨?_, ih2⟩
    rw [ih1]
    by_cases h : env.addrString a ∈ st.1.map env.addrString
    · rw [signerStep_of_seen env st a hinv h]
      simp only [firstOccurrencesBy, List.filter_cons, List.filter_filter]
      have hdec : decide (env.addrString a ∉ st.1.map env.addrString) = false := by
        simpa using h
      rw [hdec]
      simp only [Bool.false_eq_true, if_false]
      congr 1
      apply List.filter_congr
      intro x _
      by_cases hx : env.addrString x ∈ st.1.map env.addrString
      · simp [hx]
      · have hne : env.addrString x ≠ env.addrString a := fun hc => hx (hc ▸ h)
        simp [hx, hne]
    · rw [signerStep_of_not_seen env st a hinv h]
      simp only [firstOccurrencesBy, List.filter_cons, List.filter_filter]
      have hdec : decide (env.addrString a ∉ st.1.map env.addrString) = true := by
        simpa using h
      rw [hdec]
      simp only [if_true, List.append_assoc, List.singleton_append]
      congr 2
      apply List.filter_congr
      intro x _
      simp only [List.map_append, List.map_cons, List.map_nil, List.mem_append,
        List.mem_singleton, not_or, Bool.decide_and, Bool.and_comm]

/-- The nested loops of lines 51-61 compute the first occurrences, by address string, of
the concatenated per-message signer lists. -/
theorem resolveSigners_eq (env : Env) (msgs : List Msg) :
    resolveSigners env msgs = firstOccurrencesBy env.addrString (requiredSigners msgs) := by
  have h : msgs.foldl (fun st msg => msg.GetSigners.foldl (signerStep env) st) ([], []) =
      (requiredSigners msgs).foldl (signerStep env) ([], []) := by
    unfold requiredSigners
    rw [List.foldl_flatten, List.foldl_map]
  unfold resolveSigners
  rw [h, (foldl_signerStep env (requiredSigners msgs) ([], []) (seenInv_init env)).1]
  simp

/-! ## The decoder, step by step -/

theorem decodeMsgs_ok (env : Env) (anys : List Any) :
    ∀ msgs : List Msg, decodeMsgs env anys = .ok msgs →
      anys.map Any.GetCachedValue = msgs.map CachedValue.msg := by
  induction anys with
  | nil =>
    intro msgs h
    simp only [decodeMsgs, Except.ok.injEq] at h
    subst h
    rfl
  | cons a rest ih =>
    intro msgs h
    unfold decodeMsgs at h
    split at h
    · rename_i m hm
      split at h
      · rename_i ms hms
        simp only [Except.ok.injEq] at h
        subst h
        simp [hm, ih ms hms]
      · simp at h
    · simp at h

/-- What a successful run of `DefaultTxDecoder` went through. -/
theorem DefaultTxDecoder_ok (env : Env) (txBytes : Bytes) (d : DecodedTx)
    (h : DefaultTxDecoder env txBytes = .ok d) :
    env.unmarshalTxRaw txBytes = .ok d.Raw ∧
      env.unmarshalTx txBytes = .ok d.Tx ∧
      decodeMsgs env d.Tx.Body.Messages = .ok d.Msgs ∧
      d.Signers = resolveSigners env d.Msgs ∧
      signerInfoLoop env d.Signers 0 d.Tx.AuthInfo.SignerInfos ([], []) =
        .ok (d.PubKeys, d.SignerInfoMap) := by
  unfold DefaultTxDecoder at h
  split at h
  · simp at h
  · rename_i raw hraw
    split at h
    · simp at h
    · rename_i tx htx
      split at h
      · simp at h
      · rename_i msgs hmsgs
        simp only at h
        split at h
        · simp at h
        · rename_i pubKeys signerInfoMap hloop
          simp only [Except.ok.injEq] at h
          subst h
          exact ⟨hraw, htx, hmsgs, rfl, hloop⟩

theorem signerInfoLoop_get (env : Env) (signers : List AccAddress)
    (hnd : (signers.map env.addrString).Nodup) (sis : List SignerInfo) :
    ∀ (i : Nat) (st st' : List PubKey × GoMap SignerInfo),
      signerInfoLoop env signers i sis st = .ok st' →
      (∀ (j : Nat) (a : AccAddress) (si : SignerInfo),
          signers[i + j]? = some a → sis[j]? = some si →
            st'.2.get (env.addrString a) = some si) ∧
        (∀ k : String,
          (∀ (j : Nat) (a : AccAddress), j < sis.length → signers[i + j]? = some a →
              env.addrString a ≠ k) →
            st'.2.get k = st.2.get k) := by
  induction sis with
  | nil =>
    intro i st st' h
    simp only [signerInfoLoop, Except.ok.injEq] at h
    subst h
    simp
  | cons si0 rest ih =>
    intro i st st' h
    unfold signerInfoLoop at h
    split at h
    swap
    · simp at h
    rename_i pubKey _
    obtain ⟨ihA, ihB⟩ := ih (i + 1) _ st' h
    have hshift : ∀ j : Nat, i + 1 + j = i + (j + 1) := fun j => by omega
    constructor
    · intro j a si ha hsi
      cases j with
      | zero =>
        simp only [List.getElem?_cons_zero, Option.some.injEq] at hsi
        subst hsi
        simp only [Nat.add_zero] at ha
        obtain ⟨hlt, hget⟩ := List.getElem?_eq_some.mp ha
        rw [ihB (env.addrString a)]
        · simp only [hlt, dite_true, hget]
          exact GoMap.get_set_self _ _ _
        · intro j' a' _ ha' heq
          rw [hshift] at ha'
          have hne := (List.nodup_iff_getElem?_ne_getElem?.mp hnd) i (i + (j' + 1))
            (by omega) (by
              simp only [List.length_map]
              exact (List.getElem?_eq_some.mp ha').1)
          apply hne
          simp [List.getElem?_map, ha, ha', heq]
      | succ j' =>
        simp only [List.getElem?_cons_succ] at hsi
        rw [← hshift] at ha
        exact ihA j' a si ha hsi
    · intro k hk
      rw [ihB k]
      · by_cases hlt : i < signers.length
        · simp only [hlt, dite_true]
          apply GoMap.get_set_of_ne
          exact hk 0 signers[i] (by simp) (by simp [List.getElem?_eq_getElem hlt])
        · simp only [hlt, dite_false]
      · intro j' a' hj' ha'
        rw [hshift] at ha'
        exact hk (j' + 1) a' (by simp only [List.length_cons]; omega) ha'

/-- The signer list of a decoded transaction has pairwise distinct address strings. -/
theorem nodup_strings_resolveSigners (env : Env) (msgs : List Msg) :
    ((resolveSigners env msgs).map env.addrString).Nodup := by
  rw [resolveSigners_eq]
  exact nodup_keys_firstOccurrencesBy _ _

/-! ## Signer resolution -/

theorem sampleDecoded_eq : DefaultTxDecoder sampleLib [1] = .ok sampleDecoded := by
  rfl

/-- C1: for a successfully decoded transaction whose required signers are told apart by
their address strings, the decoded messages are the ones held by the body, and the signer
list is the concatenation of the messages' `GetSigners()` (message order, then
per-message order) with every address after its first occurrence removed. -/
theorem DefaultTxDecoder_signers_eq_firstOccurrences (env : Env) (txBytes : Bytes)
    (d : DecodedTx) (hdec : DefaultTxDecoder env txBytes = .ok d)
    (hinj : ∀ a ∈ requiredSigners d.Msgs, ∀ b ∈ requiredSigners d.Msgs,
      env.addrString a = env.addrString b → a = b) :
    d.Tx.Body.Messages.map Any.GetCachedValue = d.GetMsgs.map CachedValue.msg ∧
      d.GetSigners = firstOccurrences ((d.GetMsgs.map Msg.GetSigners).flatten) := by
  obtain ⟨_, _, hmsgs, hsigners, _⟩ := DefaultTxDecoder_ok env txBytes d hdec
  refine ⟨decodeMsgs_ok env _ _ hmsgs, ?_⟩
  show d.Signers = firstOccurrences (requiredSigners d.Msgs)
  rw [hsigners, resolveSigners_eq, firstOccurrencesBy_eq_of_injOn _ _ hinj]

theorem DefaultTxDecoder_signers_eq_firstOccurrences_witness :
    DefaultTxDecoder sampleLib [1] = .ok sampleDecoded ∧
      sampleDecoded.GetSigners = [[1], [2], [3]] ∧
      sampleDecoded.Tx.Body.Messages.map Any.GetCachedValue =
        sampleDecoded.GetMsgs.map CachedValue.msg ∧
      sampleDecoded.GetSigners =
        firstOccurrences ((sampleDecoded.GetMsgs.map Msg.GetSigners).flatten) :=
  ⟨sampleDecoded_eq, rfl,
    DefaultTxDecoder_signers_eq_firstOccurrences sampleLib [1] sampleDecoded sampleDecoded_eq
      (by decide)⟩

/-- C2: the signer list of a successfully decoded transaction holds no address twice:
the entries at two different positions differ. -/
theorem DefaultTxDecoder_signers_distinct (env : Env) (txBytes : Bytes) (d : DecodedTx)
    (hdec : DefaultTxDecoder env txBytes = .ok d) (i j : Nat)
    (hi : i < d.GetSigners.length) (hj : j < d.GetSigners.length) (hij : i ≠ j) :
    d.GetSigners[i] ≠ d.GetSigners[j] := by
  obtain ⟨_, _, _, hsigners, _⟩ := DefaultTxDecoder_ok env txBytes d hdec
  have hnd : (d.GetSigners.map env.addrString).Nodup := by
    show (d.Signers.map env.addrString).Nodup
    rw [hsigners]
    exact nodup_strings_resolveSigners env d.Msgs
  have hnd2 : d.GetSigners.Nodup := hnd.of_map _
  intro heq
  exact hij (hnd2.getElem_inj_iff.mp heq)

theorem DefaultTxDecoder_signers_distinct_witness :
    DefaultTxDecoder sampleLib [1] = .ok sampleDecoded ∧
      sampleDecoded.GetSigners.get ⟨0, by decide⟩ ≠
        sampleDecoded.GetSigners.get ⟨2, by decide⟩ :=
  ⟨sampleDecoded_eq,
    DefaultTxDecoder_signers_distinct sampleLib [1] sampleDecoded sampleDecoded_eq 0 2
      (by decide) (by decide) (by decide)⟩

/-- C3: for a successfully decoded transaction whose required signers are told apart by
their address strings, an address is in the signer list if and only if some message of
the transaction requires it as a signer. -/
theorem DefaultTxDecoder_mem_signers_iff (env : Env) (txBytes : Bytes) (d : DecodedTx)
    (hdec : DefaultTxDecoder env txBytes = .ok d)
    (hinj : ∀ a ∈ requiredSigners d.Msgs, ∀ b ∈ requiredSigners d.Msgs,
      env.addrString a = env.addrString b → a = b)
    (addr : AccAddress) :
    addr ∈ d.GetSigners ↔ ∃ msg ∈ d.GetMsgs, addr ∈ msg.GetSigners := by
  obtain ⟨_, _, _, hsigners, _⟩ := DefaultTxDecoder_ok env txBytes d hdec
  show addr ∈ d.Signers ↔ ∃ msg ∈ d.Msgs, addr ∈ msg.GetSigners
  rw [hsigners, resolveSigners_eq, firstOccurrencesBy_eq_of_injOn _ _ hinj,
    mem_firstOccurrences]
  simp [requiredSigners, List.mem_flatten]

theorem DefaultTxDecoder_mem_signers_iff_witness :
    DefaultTxDecoder sampleLib [1] = .ok sampleDecoded ∧
      (([3] : AccAddress) ∈ sampleDecoded.GetSigners ↔
        ∃ msg ∈ sampleDecoded.GetMsgs, ([3] : AccAddress) ∈ msg.GetSigners) :=
  ⟨sampleDecoded_eq,
    DefaultTxDecoder_mem_signers_iff sampleLib [1] sampleDecoded sampleDecoded_eq
      (by decide) [3]⟩

/-- C4: for a successfully decoded transaction and an index `i` below both the number of
signers and the number of signer infos, looking up the string of the `i`-th signer in
`SignerInfoMap` gives the `i`-th signer info of the auth-info, whatever key it declares. -/
theorem DefaultTxDecoder_signerInfoMap_positional (env : Env) (txBytes : Bytes)
    (d : DecodedTx) (hdec : DefaultTxDecoder env txBytes = .ok d) (i : Nat)
    (hi : i < d.GetSigners.length) (hi2 : i < d.Tx.AuthInfo.SignerInfos.length) :
    d.SignerInfoMap.get (env.addrString d.GetSigners[i]) =
      some d.Tx.AuthInfo.SignerInfos[i] := by
  obtain ⟨_, _, _, hsigners, hloop⟩ := DefaultTxDecoder_ok env txBytes d hdec
  have hnd : (d.Signers.map env.addrString).Nodup := by
    rw [hsigners]
    exact nodup_strings_resolveSigners env d.Msgs
  have hget := (signerInfoLoop_get env d.Signers hnd d.Tx.AuthInfo.SignerInfos 0 _ _
    hloop).1 i d.Signers[i] d.Tx.AuthInfo.SignerInfos[i]
    (by rw [Nat.zero_add]; exact List.getElem?_eq_getElem hi)
    (List.getElem?_eq_getElem hi2)
  exact hget

theorem DefaultTxDecoder_signerInfoMap_positional_witness :
    DefaultTxDecoder sampleLib [1] = .ok sampleDecoded ∧
      sampleDecoded.SignerInfoMap.get
          (sampleLib.addrString (sampleDecoded.GetSigners.get ⟨1, by decide⟩)) =
        some (sampleDecoded.Tx.AuthInfo.SignerInfos.get ⟨1, by decide⟩) :=
  ⟨sampleDecoded_eq,
    DefaultTxDecoder_signerInfoMap_positional sampleLib [1] sampleDecoded sampleDecoded_eq 1
      (by decide) (by decide)⟩

/-! ## Structural validation -/

/-- On a decoded transaction whose fee is present: when the number of signatures differs
from the number of signers, `ValidateBasic` returns an error and does not succeed. -/
theorem ValidateBasic_error_of_count_mismatch (env : Env) (d : DecodedTx)
    (h : d.Tx.Signatures.length ≠ d.GetSigners.length) :
    (∃ err : Error, d.ValidateBasic env = .error err) ∧ d.ValidateBasic env ≠ .ok () := by
  unfold DecodedTx.ValidateBasic
  simp only
  split_ifs <;> simp

theorem ValidateBasic_error_of_count_mismatch_witness :
    (sampleWith 200000 50 [[7], [8]]).Tx.Signatures.length ≠
        (sampleWith 200000 50 [[7], [8]]).GetSigners.length ∧
      (∃ err : Error, (sampleWith 200000 50 [[7], [8]]).ValidateBasic sampleLib = .error err) ∧
      (sampleWith 200000 50 [[7], [8]]).ValidateBasic sampleLib ≠ .ok () :=
  ⟨by decide,
    ValidateBasic_error_of_count_mismatch sampleLib (sampleWith 200000 50 [[7], [8]])
      (by decide)⟩

/-- On a decoded transaction whose fee is present: `ValidateBasic` succeeds if and only
if the gas limit is at most `auth.MaxGasWanted`, no coin of the fee has a negative amount,
there is at least one signature, and there are as many signatures as signers. -/
theorem ValidateBasic_ok_iff (env : Env) (d : DecodedTx) :
    d.ValidateBasic env = .ok () ↔
      d.GetGas ≤ env.MaxGasWanted ∧
        (∀ coin ∈ d.GetFee, 0 ≤ coin.Amount) ∧
        0 < d.Tx.Signatures.length ∧
        d.Tx.Signatures.length = d.GetSigners.length := by
  have hneg : Coins.IsAnyNegative d.GetFee = true ↔ ¬ ∀ coin ∈ d.GetFee, 0 ≤ coin.Amount := by
    simp [Coins.IsAnyNegative]
  unfold DecodedTx.ValidateBasic
  simp only
  split_ifs with h1 h2 h3 h4
  · simp only [reduceCtorEq, false_iff]
    omega
  · simp only [reduceCtorEq, false_iff]
    exact fun hc => (hneg.mp h2) hc.2.1
  · simp only [reduceCtorEq, false_iff]
    omega
  · simp only [reduceCtorEq, false_iff]
    exact fun hc => h4 hc.2.2.2
  · simp only [true_iff]
    refine ⟨by omega, ?_, by omega, by simpa using h4⟩
    by_contra hc
    exact h2 (hneg.mpr hc)

/-- C7: a rejection by `ValidateBasic` carries the kind of the first failing check in the
order gas, fee, signatures present, signature count: `ErrInvalidRequest` for a gas limit
above `auth.MaxGasWanted`; otherwise `ErrInsufficientFee` for a negative fee; otherwise
`ErrNoSignatures` for no signature; otherwise `ErrUnauthorized` for a count mismatch. -/
theorem ValidateBasic_error_kind (env : Env) (d : DecodedTx) :
    (env.MaxGasWanted < d.GetGas →
        ∃ err, d.ValidateBasic env = .error err ∧ err.kind = some .ErrInvalidRequest) ∧
      (d.GetGas ≤ env.MaxGasWanted → Coins.IsAnyNegative d.GetFee = true →
        ∃ err, d.ValidateBasic env = .error err ∧ err.kind = some .ErrInsufficientFee) ∧
      (d.GetGas ≤ env.MaxGasWanted → Coins.IsAnyNegative d.GetFee = false →
        d.Tx.Signatures.length = 0 →
        ∃ err, d.ValidateBasic env = .error err ∧ err.kind = some .ErrNoSignatures) ∧
      (d.GetGas ≤ env.MaxGasWanted → Coins.IsAnyNegative d.GetFee = false →
        d.Tx.Signatures.length ≠ 0 → d.Tx.Signatures.length ≠ d.GetSigners.length →
        ∃ err, d.ValidateBasic env = .error err ∧ err.kind = some .ErrUnauthorized) := by
  refine ⟨fun h1 => ?_, fun h1 h2 => ?_, fun h1 h2 h3 => ?_, fun h1 h2 h3 h4 => ?_⟩
  · exact ⟨.wrapped .ErrInvalidRequest, by simp [DecodedTx.ValidateBasic, h1], rfl⟩
  · exact ⟨.wrapped .ErrInsufficientFee,
      by simp [DecodedTx.ValidateBasic, Nat.not_lt.mpr h1, h2], rfl⟩
  · exact ⟨.registered .ErrNoSignatures,
      by simp [DecodedTx.ValidateBasic, Nat.not_lt.mpr h1, h2, h3], rfl⟩
  · exact ⟨.wrapped .ErrUnauthorized,
      by simp [DecodedTx.ValidateBasic, Nat.not_lt.mpr h1, h2, h3, h4], rfl⟩

theorem ValidateBasic_error_kind_witness :
    (∃ err, (sampleWith (2 ^ 63) (-1) []).ValidateBasic sampleLib = .error err ∧
        err.kind = some .ErrInvalidRequest) ∧
      (∃ err, (sampleWith 200000 (-1) []).ValidateBasic sampleLib = .error err ∧
        err.kind = some .ErrInsufficientFee) ∧
      (∃ err, (sampleWith 200000 50 []).ValidateBasic sampleLib = .error err ∧
        err.kind = some .ErrNoSignatures) ∧
      (∃ err, (sampleWith 200000 50 [[7]]).ValidateBasic sampleLib = .error err ∧
        err.kind = some .ErrUnauthorized) :=
  ⟨(ValidateBasic_error_kind sampleLib (sampleWith (2 ^ 63) (-1) [])).1 (by decide),
    (ValidateBasic_error_kind sampleLib (sampleWith 200000 (-1) [])).2.1
      (by decide) (by decide),
    (ValidateBasic_error_kind sampleLib (sampleWith 200000 50 [])).2.2.1
      (by decide) (by decide) (by decide),
    (ValidateBasic_error_kind sampleLib (sampleWith 200000 50 [[7]])).2.2.2
      (by decide) (by decide) (by decide) (by decide)⟩

/-! ## Sign bytes -/

/-- The result of `GetSignBytes` for an account whose address string has an entry in
`SignerInfoMap`, by declared mode. -/
theorem GetSignBytes_of_signerInfo (env : Env) (d : DecodedTx) (ctx : Context)
    (acc : Account) (si : SignerInfo)
    (hsi : d.SignerInfoMap.get (env.addrString acc.GetAddress) = some si) :
    d.GetSignBytes env ctx acc =
      match si.ModeInfo.Sum with
      | .Single .SIGN_MODE_UNSPECIFIED => .error (.errorf "unspecified sign mode")
      | .Single .SIGN_MODE_DIRECT =>
        DirectSignBytes env d.Raw.BodyBytes d.Raw.AuthInfoBytes ctx.ChainID
          (if ctx.BlockHeight = 0 then 0 else acc.GetAccountNumber) acc.GetSequence
      | .Single .SIGN_MODE_TEXTUAL => .error (.errorf "SIGN_MODE_TEXTUAL is not supported yet")
      | .Single .SIGN_MODE_LEGACY_AMINO_JSON =>
        .ok (env.StdSignBytes ctx.ChainID
          (if ctx.BlockHeight = 0 then 0 else acc.GetAccountNumber) acc.GetSequence
          { Amount := d.GetFee, Gas := d.GetGas } d.Msgs d.Tx.Body.Memo)
      | .Single (.unknown _) => .error (.errorf "unexpected")
      | .Multi _ => .error (.errorf "multisig mode info is not supported by GetSignBytes")
      | .unset => .error (.errorf "unexpected ModeInfo") := by
  unfold DecodedTx.GetSignBytes
  simp only [hsi]
  by_cases hh : ctx.BlockHeight = 0
  · rcases hs : si.ModeInfo.Sum with mode | desc | _
    · cases mode <;> simp [hh]
    · simp
    · simp
  · rcases hs : si.ModeInfo.Sum with mode | desc | _
    · cases mode <;> simp [hh]
    · simp
    · simp

/-- C8: for a signer whose signer info declares the single mode Direct, `GetSignBytes`
returns exactly `DirectSignBytes` of the retained raw body bytes, the retained raw
auth-info bytes, the chain id, the account number in force and the account sequence, which
is the encoding of the sign document with those five fields; and any other decoded
transaction with the same two raw byte ranges whose signer info for that address is also
Direct gives the same result, whatever its messages, fee and memo. -/
theorem GetSignBytes_direct (env : Env) (d : DecodedTx) (ctx : Context) (acc : Account)
    (si : SignerInfo)
    (hsi : d.SignerInfoMap.get (env.addrString acc.GetAddress) = some si)
    (hmode : si.ModeInfo.Sum = .Single .SIGN_MODE_DIRECT) :
    d.GetSignBytes env ctx acc =
        DirectSignBytes env d.Raw.BodyBytes d.Raw.AuthInfoBytes ctx.ChainID
          (if ctx.BlockHeight = 0 then 0 else acc.GetAccountNumber) acc.GetSequence ∧
      d.GetSignBytes env ctx acc =
        env.marshalSignDocRaw {
          BodyBytes := d.Raw.BodyBytes
          AuthInfoBytes := d.Raw.AuthInfoBytes
          ChainId := ctx.ChainID
          AccountNumber := if ctx.BlockHeight = 0 then 0 else acc.GetAccountNumber
          AccountSequence := acc.GetSequence } ∧
      ∀ (d2 : DecodedTx) (si2 : SignerInfo),
        d2.Raw.BodyBytes = d.Raw.BodyBytes → d2.Raw.AuthInfoBytes = d.Raw.AuthInfoBytes →
        d2.SignerInfoMap.get (env.addrString acc.GetAddress) = some si2 →
        si2.ModeInfo.Sum = .Single .SIGN_MODE_DIRECT →
        d2.GetSignBytes env ctx acc = d.GetSignBytes env ctx acc := by
  have h1 := GetSignBytes_of_signerInfo env d ctx acc si hsi
  rw [hmode] at h1
  refine ⟨h1, h1, ?_⟩
  intro d2 si2 hb ha hsi2 hmode2
  have h2 := GetSignBytes_of_signerInfo env d2 ctx acc si2 hsi2
  rw [hmode2] at h2
  rw [h1, h2, hb, ha]

theorem GetSignBytes_direct_witness :
    sampleDecoded.GetSignBytes sampleLib (sampleCtx 1) (sampleAccount [1]) =
        .ok [10, 11, 20, 10, 9, 4] ∧
      sampleDecoded.GetSignBytes sampleLib (sampleCtx 1) (sampleAccount [1]) =
        DirectSignBytes sampleLib sampleDecoded.Raw.BodyBytes sampleDecoded.Raw.AuthInfoBytes
          (sampleCtx 1).ChainID
          (if (sampleCtx 1).BlockHeight = 0 then 0 else (sampleAccount [1]).GetAccountNumber)
          (sampleAccount [1]).GetSequence :=
  ⟨rfl,
    (GetSignBytes_direct sampleLib sampleDecoded (sampleCtx 1) (sampleAccount [1])
      (sampleSignerInfo 101 .SIGN_MODE_DIRECT) rfl rfl).1⟩

/-- The result of `GetSignBytes` at block height zero does not depend on the account
number. -/
theorem GetSignBytes_genesis_congr (env : Env) (d : DecodedTx) (ctx : Context)
    (acc acc2 : Account) (hh : ctx.BlockHeight = 0)
    (haddr : acc2.GetAddress = acc.GetAddress) (hseq : acc2.GetSequence = acc.GetSequence) :
    d.GetSignBytes env ctx acc2 = d.GetSignBytes env ctx acc := by
  unfold DecodedTx.GetSignBytes
  simp only [haddr, hseq, hh, decide_True, Bool.not_true, Bool.false_eq_true, if_false]

/-- C9: `GetSignBytes` signs with account number 0 at block height 0 and with the
account's own number at every other height. At height 0 a Direct signer gets
`DirectSignBytes` with account number 0, a Legacy-Amino-JSON signer gets
`auth.StdSignBytes` with account number 0, and two accounts that differ only in their
account number get identical results; at a non-zero height the same two modes are
computed with `acc.GetAccountNumber()`. -/
theorem GetSignBytes_account_number (env : Env) (d : DecodedTx) (ctx : Context)
    (acc : Account) (si : SignerInfo)
    (hsi : d.SignerInfoMap.get (env.addrString acc.GetAddress) = some si) :
    (ctx.BlockHeight = 0 → si.ModeInfo.Sum = .Single .SIGN_MODE_DIRECT →
        d.GetSignBytes env ctx acc =
          DirectSignBytes env d.Raw.BodyBytes d.Raw.AuthInfoBytes ctx.ChainID 0
            acc.GetSequence) ∧
      (ctx.BlockHeight = 0 → si.ModeInfo.Sum = .Single .SIGN_MODE_LEGACY_AMINO_JSON →
        d.GetSignBytes env ctx acc =
          .ok (env.StdSignBytes ctx.ChainID 0 acc.GetSequence
            { Amount := d.GetFee, Gas := d.GetGas } d.Msgs d.Tx.Body.Memo)) ∧
      (ctx.BlockHeight = 0 → ∀ acc2 : Account, acc2.GetAddress = acc.GetAddress →
        acc2.GetSequence = acc.GetSequence →
        d.GetSignBytes env ctx acc2 = d.GetSignBytes env ctx acc) ∧
      (ctx.BlockHeight ≠ 0 → si.ModeInfo.Sum = .Single .SIGN_MODE_DIRECT →
        d.GetSignBytes env ctx acc =
          DirectSignBytes env d.Raw.BodyBytes d.Raw.AuthInfoBytes ctx.ChainID
            acc.GetAccountNumber acc.GetSequence) ∧
      (ctx.BlockHeight ≠ 0 → si.ModeInfo.Sum = .Single .SIGN_MODE_LEGACY_AMINO_JSON →
        d.GetSignBytes env ctx acc =
          .ok (env.StdSignBytes ctx.ChainID acc.GetAccountNumber acc.GetSequence
            { Amount := d.GetFee, Gas := d.GetGas } d.Msgs d.Tx.Body.Memo)) := by
  have h := GetSignBytes_of_signerInfo env d ctx acc si hsi
  refine ⟨fun hh hm => ?_, fun hh hm => ?_, fun hh acc2 ha hs => ?_, fun hh hm => ?_,
    fun hh hm => ?_⟩
  · rw [h, hm]
    simp [hh]
  · rw [h, hm]
    simp [hh]
  · exact GetSignBytes_genesis_congr env d ctx acc acc2 hh ha hs
  · rw [h, hm]
    simp [hh]
  · rw [h, hm]
    simp [hh]

theorem GetSignBytes_account_number_witness :
    (sampleDecoded.GetSignBytes sampleLib (sampleCtx 0) (sampleAccount [1]) =
        DirectSignBytes sampleLib [10, 11] [20] "test-chain" 0 4) ∧
      (sampleDecoded.GetSignBytes sampleLib (sampleCtx 0) (sampleAccount [2]) =
        .ok (sampleLib.StdSignBytes "test-chain" 0 4
          { Amount := sampleDecoded.GetFee, Gas := sampleDecoded.GetGas } sampleDecoded.Msgs
          "memo")) ∧
      (sampleDecoded.GetSignBytes sampleLib (sampleCtx 0)
          { GetAddress := [1], GetAccountNumber := 77, GetSequence := 4 } =
        sampleDecoded.GetSignBytes sampleLib (sampleCtx 0) (sampleAccount [1])) ∧
      (sampleDecoded.GetSignBytes sampleLib (sampleCtx 5) (sampleAccount [1]) =
        DirectSignBytes sampleLib [10, 11] [20] "test-chain" 9 4) ∧
      (sampleDecoded.GetSignBytes sampleLib (sampleCtx 5) (sampleAccount [2]) =
        .ok (sampleLib.StdSignBytes "test-chain" 9 4
          { Amount := sampleDecoded.GetFee, Gas := sampleDecoded.GetGas } sampleDecoded.Msgs
          "memo")) :=
  ⟨(GetSignBytes_account_number sampleLib sampleDecoded (sampleCtx 0) (sampleAccount [1])
      (sampleSignerInfo 101 .SIGN_MODE_DIRECT) rfl).1 rfl rfl,
    (GetSignBytes_account_number sampleLib sampleDecoded (sampleCtx 0) (sampleAccount [2])
      (sampleSignerInfo 102 .SIGN_MODE_LEGACY_AMINO_JSON) rfl).2.1 rfl rfl,
    (GetSignBytes_account_number sampleLib sampleDecoded (sampleCtx 0) (sampleAccount [1])
      (sampleSignerInfo 101 .SIGN_MODE_DIRECT) rfl).2.2.1 rfl
      { GetAddress := [1], GetAccountNumber := 77, GetSequence := 4 } rfl rfl,
    (GetSignBytes_account_number sampleLib sampleDecoded (sampleCtx 5) (sampleAccount [1])
      (sampleSignerInfo 101 .SIGN_MODE_DIRECT) rfl).2.2.2.1 (by decide) rfl,
    (GetSignBytes_account_number sampleLib sampleDecoded (sampleCtx 5) (sampleAccount [2])
      (sampleSignerInfo 102 .SIGN_MODE_LEGACY_AMINO_JSON) rfl).2.2.2.2 (by decide) rfl⟩

/-- On signer infos whose mode info is present: `GetSignBytes` returns bytes only for a
signer whose mode info is the single mode Direct or the single mode Legacy-Amino-JSON;
for the unspecified mode, the textual mode, any other single mode value, a multi-signer
mode info and a mode info whose oneof is not set it returns an error and no bytes. -/
theorem GetSignBytes_no_default_bytes (env : Env) (d : DecodedTx) (ctx : Context)
    (acc : Account) :
    (∀ bz : Bytes, d.GetSignBytes env ctx acc = .ok bz →
        ∃ si : SignerInfo, d.SignerInfoMap.get (env.addrString acc.GetAddress) = some si ∧
          (si.ModeInfo.Sum = .Single .SIGN_MODE_DIRECT ∨
            si.ModeInfo.Sum = .Single .SIGN_MODE_LEGACY_AMINO_JSON)) ∧
      (∀ si : SignerInfo, d.SignerInfoMap.get (env.addrString acc.GetAddress) = some si →
        (si.ModeInfo.Sum = .Single .SIGN_MODE_UNSPECIFIED ∨
          si.ModeInfo.Sum = .Single .SIGN_MODE_TEXTUAL ∨
          (∃ value : Int, si.ModeInfo.Sum = .Single (.unknown value)) ∨
          (∃ descriptor : Bytes, si.ModeInfo.Sum = .Multi descriptor) ∨
          si.ModeInfo.Sum = .unset) →
        ∃ err : Error, d.GetSignBytes env ctx acc = .error err) := by
  constructor
  · intro bz hbz
    cases hsi : d.SignerInfoMap.get (env.addrString acc.GetAddress) with
    | none =>
      unfold DecodedTx.GetSignBytes at hbz
      simp [hsi] at hbz
    | some si =>
      refine ⟨si, rfl, ?_⟩
      rw [GetSignBytes_of_signerInfo env d ctx acc si hsi] at hbz
      rcases hs : si.ModeInfo.Sum with mode | desc | _
      · cases mode <;> simp [hs] at hbz ⊢
      · simp [hs] at hbz
      · simp [hs] at hbz
  · intro si hsi hmode
    rw [GetSignBytes_of_signerInfo env d ctx acc si hsi]
    rcases hmode with h | h | ⟨v, h⟩ | ⟨b, h⟩ | h <;> rw [h] <;> exact ⟨_, rfl⟩

theorem GetSignBytes_no_default_bytes_witness :
    (∃ si : SignerInfo,
        sampleDecoded.SignerInfoMap.get (sampleLib.addrString (sampleAccount [1]).GetAddress) =
            some si ∧
          (si.ModeInfo.Sum = .Single .SIGN_MODE_DIRECT ∨
            si.ModeInfo.Sum = .Single .SIGN_MODE_LEGACY_AMINO_JSON)) ∧
      (∃ err : Error,
        DecodedTx.GetSignBytes sampleLib
            { sampleDecoded with
              SignerInfoMap := [(sampleLib.addrString [1],
                sampleSignerInfo 101 .SIGN_MODE_TEXTUAL)] }
            (sampleCtx 5) (sampleAccount [1]) = .error err) :=
  ⟨(GetSignBytes_no_default_bytes sampleLib sampleDecoded (sampleCtx 5)
      (sampleAccount [1])).1 [10, 11, 20, 10, 9, 4] rfl,
    (GetSignBytes_no_default_bytes sampleLib
      { sampleDecoded with
        SignerInfoMap := [(sampleLib.addrString [1],
          sampleSignerInfo 101 .SIGN_MODE_TEXTUAL)] }
      (sampleCtx 5) (sampleAccount [1])).2 (sampleSignerInfo 101 .SIGN_MODE_TEXTUAL) rfl
      (Or.inr (Or.inl rfl))⟩

/-! ## Failures of `GetSignBytes` -/

/-- The text reported for a missing signer info starts with two letters that none of
the fixed failure texts starts with. -/
theorem missing_text_ne (s t : String) (ht : t.data.take 2 ≠ ['m', 'i']) :
    "missing SignerInfo for address " ++ s ≠ t := by
  intro h
  apply ht
  rw [← h]
  simp [String.data_append]

/-- C11: the failures of `GetSignBytes` can be told apart. The textual mode fails with
the text "SIGN_MODE_TEXTUAL is not supported yet", a multi-signer mode info with
"multisig mode info is not supported by GetSignBytes", the unspecified mode with
"unspecified sign mode", a mode info that is not set with "unexpected ModeInfo", and a
missing signer info with "missing SignerInfo for address" followed by the address; the
first two errors differ from each other and from each of the other three. -/
theorem GetSignBytes_failures_distinct (env : Env) (d : DecodedTx) (ctx : Context)
    (acc : Account) :
    (∀ si : SignerInfo, d.SignerInfoMap.get (env.addrString acc.GetAddress) = some si →
        (si.ModeInfo.Sum = .Single .SIGN_MODE_TEXTUAL →
          d.GetSignBytes env ctx acc =
            .error (.errorf "SIGN_MODE_TEXTUAL is not supported yet")) ∧
        ((∃ descriptor : Bytes, si.ModeInfo.Sum = .Multi descriptor) →
          d.GetSignBytes env ctx acc =
            .error (.errorf "multisig mode info is not supported by GetSignBytes")) ∧
        (si.ModeInfo.Sum = .Single .SIGN_MODE_UNSPECIFIED →
          d.GetSignBytes env ctx acc = .error (.errorf "unspecified sign mode")) ∧
        (si.ModeInfo.Sum = .unset →
          d.GetSignBytes env ctx acc = .error (.errorf "unexpected ModeInfo"))) ∧
      (d.SignerInfoMap.get (env.addrString acc.GetAddress) = none →
        d.GetSignBytes env ctx acc =
          .error (.errorf ("missing SignerInfo for address " ++
            env.addrString acc.GetAddress))) ∧
      Error.errorf "SIGN_MODE_TEXTUAL is not supported yet" ≠
        Error.errorf "multisig mode info is not supported by GetSignBytes" ∧
      (∀ unsupported ∈ [Error.errorf "SIGN_MODE_TEXTUAL is not supported yet",
          Error.errorf "multisig mode info is not supported by GetSignBytes"],
        unsupported ≠ Error.errorf "unspecified sign mode" ∧
          unsupported ≠ Error.errorf "unexpected ModeInfo" ∧
          unsupported ≠ Error.errorf "unexpected" ∧
          unsupported ≠
            Error.errorf ("missing SignerInfo for address " ++
              env.addrString acc.GetAddress)) := by
  refine ⟨fun si hsi => ?_, fun hnone => ?_, by decide, ?_⟩
  · have h := GetSignBytes_of_signerInfo env d ctx acc si hsi
    refine ⟨fun hm => ?_, fun hm => ?_, fun hm => ?_, fun hm => ?_⟩
    · rw [h, hm]
    · obtain ⟨b, hb⟩ := hm
      rw [h, hb]
    · rw [h, hm]
    · rw [h, hm]
  · unfold DecodedTx.GetSignBytes
    simp only [hnone]
  · intro unsupported hmem
    simp only [List.mem_cons, List.mem_singleton, List.mem_nil_iff, or_false] at hmem
    rcases hmem with h | h <;> subst h
    · refine ⟨by decide, by decide, by decide, fun hc => ?_⟩
      exact missing_text_ne _ _ (by decide) (Error.errorf.inj hc).symm
    · refine ⟨by decide, by decide, by decide, fun hc => ?_⟩
      exact missing_text_ne _ _ (by decide) (Error.errorf.inj hc).symm

theorem GetSignBytes_failures_distinct_witness :
    sampleModes.GetSignBytes sampleLib (sampleCtx 1) (sampleAccount [1]) =
        .error (.errorf "SIGN_MODE_TEXTUAL is not supported yet") ∧
      sampleModes.GetSignBytes sampleLib (sampleCtx 1) (sampleAccount [2]) =
        .error (.errorf "multisig mode info is not supported by GetSignBytes") ∧
      sampleModes.GetSignBytes sampleLib (sampleCtx 1) (sampleAccount [3]) =
        .error (.errorf "unspecified sign mode") ∧
      sampleModes.GetSignBytes sampleLib (sampleCtx 1) (sampleAccount [4]) =
        .error (.errorf "unexpected ModeInfo") ∧
      sampleModes.GetSignBytes sampleLib (sampleCtx 1) (sampleAccount [6]) =
        .error (.errorf ("missing SignerInfo for address " ++
          sampleLib.addrString (sampleAccount [6]).GetAddress)) :=
  ⟨((GetSignBytes_failures_distinct sampleLib sampleModes (sampleCtx 1)
      (sampleAccount [1])).1 (sampleSignerInfo 101 .SIGN_MODE_TEXTUAL) rfl).1 rfl,
    ((GetSignBytes_failures_distinct sampleLib sampleModes (sampleCtx 1)
      (sampleAccount [2])).1
      { PublicKey := sampleKeyAny 102, ModeInfo := { Sum := .Multi [1, 1] } } rfl).2.1
      ⟨[1, 1], rfl⟩,
    ((GetSignBytes_failures_distinct sampleLib sampleModes (sampleCtx 1)
      (sampleAccount [3])).1 (sampleSignerInfo 103 .SIGN_MODE_UNSPECIFIED) rfl).2.2.1 rfl,
    ((GetSignBytes_failures_distinct sampleLib sampleModes (sampleCtx 1)
      (sampleAccount [4])).1
      { PublicKey := sampleKeyAny 104, ModeInfo := { Sum := .unset } } rfl).2.2.2 rfl,
    (GetSignBytes_failures_distinct sampleLib sampleModes (sampleCtx 1)
      (sampleAccount [6])).2.1 rfl⟩

/-- On a decoded transaction whose fee is present: for a signer whose signer info
declares the single mode Legacy-Amino-JSON, `GetSignBytes` succeeds and returns
`auth.StdSignBytes` applied, in this order, to the chain id, the account number in force,
the account sequence, the `StdFee` made of the fee amount and the gas limit of the
transaction, the decoded messages and the body memo. -/
theorem GetSignBytes_legacy (env : Env) (d : DecodedTx) (ctx : Context) (acc : Account)
    (si : SignerInfo)
    (hsi : d.SignerInfoMap.get (env.addrString acc.GetAddress) = some si)
    (hmode : si.ModeInfo.Sum = .Single .SIGN_MODE_LEGACY_AMINO_JSON) :
    d.GetSignBytes env ctx acc =
      .ok (env.StdSignBytes ctx.ChainID
        (if ctx.BlockHeight = 0 then 0 else acc.GetAccountNumber) acc.GetSequence
        { Amount := d.GetFee, Gas := d.GetGas } d.GetMsgs d.GetMemo) := by
  rw [GetSignBytes_of_signerInfo env d ctx acc si hsi, hmode]
  rfl

theorem GetSignBytes_legacy_witness :
    sampleDecoded.GetSignBytes sampleLib (sampleCtx 1) (sampleAccount [2]) =
        .ok [10, 9, 4, 200000, 4, 1, 2, 2, 1, 3] ∧
      sampleDecoded.GetSignBytes sampleLib (sampleCtx 1) (sampleAccount [2]) =
        .ok (sampleLib.StdSignBytes (sampleCtx 1).ChainID
          (if (sampleCtx 1).BlockHeight = 0 then 0 else (sampleAccount [2]).GetAccountNumber)
          (sampleAccount [2]).GetSequence
          { Amount := sampleDecoded.GetFee, Gas := sampleDecoded.GetGas }
          sampleDecoded.GetMsgs sampleDecoded.GetMemo) :=
  ⟨rfl,
    GetSignBytes_legacy sampleLib sampleDecoded (sampleCtx 1) (sampleAccount [2])
      (sampleSignerInfo 102 .SIGN_MODE_LEGACY_AMINO_JSON) rfl rfl⟩

/-! ## A single required signer -/

theorem firstOccurrencesBy_of_all_eq {α κ : Type} [DecidableEq κ] (key : α → κ) (a : α)
    (l : List α) (hne : l ≠ []) (hall : ∀ b ∈ l, b = a) :
    firstOccurrencesBy key l = [a] := by
  cases l with
  | nil => exact absurd rfl hne
  | cons b rest =>
    have hb : b = a := hall b (List.mem_cons_self _ _)
    subst hb
    simp only [firstOccurrencesBy, List.cons.injEq, true_and, List.filter_eq_nil_iff,
      decide_eq_true_eq, not_not]
    intro c hc
    rw [hall c (List.mem_cons_of_mem _ (mem_firstOccurrencesBy key rest c hc))]

/-- C14: for a successfully decoded transaction with at least one message, all of whose
messages require the single signer `a`, the signer list is exactly `[a]`. -/
theorem DefaultTxDecoder_single_signer (env : Env) (txBytes : Bytes) (d : DecodedTx)
    (a : AccAddress) (hdec : DefaultTxDecoder env txBytes = .ok d)
    (hne : d.GetMsgs ≠ []) (hall : ∀ msg ∈ d.GetMsgs, msg.GetSigners = [a]) :
    d.GetSigners = [a] := by
  obtain ⟨_, _, _, hsigners, _⟩ := DefaultTxDecoder_ok env txBytes d hdec
  show d.Signers = [a]
  rw [hsigners, resolveSigners_eq]
  have hmsgs : d.Msgs ≠ [] := hne
  apply firstOccurrencesBy_of_all_eq
  · obtain ⟨m, rest, hm⟩ := List.exists_cons_of_ne_nil hmsgs
    have h1 : m.GetSigners = [a] := hall m (by
      show m ∈ d.Msgs
      rw [hm]
      exact List.mem_cons_self _ _)
    simp [requiredSigners, hm, h1]
  · intro b hb
    simp only [requiredSigners, List.mem_flatten, List.mem_map] at hb
    obtain ⟨l, ⟨m, hm, hl⟩, hbl⟩ := hb
    rw [← hl, hall m hm] at hbl
    simpa using hbl

theorem DefaultTxDecoder_single_signer_witness :
    DefaultTxDecoder singleSignerLib [1] = .ok singleSignerDecoded ∧
      singleSignerDecoded.GetSigners = [[7]] :=
  ⟨rfl,
    DefaultTxDecoder_single_signer singleSignerLib [1] singleSignerDecoded [7] rfl
      (by decide) (by decide)⟩

/-! ## Fee payer -/

/-- C15, as stated, fails: the decoded transaction that declares the payer `[9]` and
has the signers `[1]`, `[2]`, `[3]` has `FeePayer()` equal to `[1]`, not to the declared
payer. -/
theorem FeePayer_declared_payer_counterexample :
    DefaultTxDecoder payerLib [1] = .ok payerDecoded ∧
      payerDecoded.Tx.AuthInfo.Fee.Payer = [9] ∧
      payerDecoded.Tx.AuthInfo.Fee.Payer ≠ [] ∧
      payerDecoded.FeePayer = [1] ∧
      payerDecoded.FeePayer ≠ payerDecoded.Tx.AuthInfo.Fee.Payer :=
  ⟨rfl, rfl, by decide, rfl, by decide⟩

/-- C15, amended: `FeePayer()` returns the first signer whenever the signer list is not
empty, and so does it for every other decoded transaction with the same signer list,
whatever payer either of them declares. -/
theorem FeePayer_eq_first_signer (d : DecodedTx) (signer : AccAddress)
    (rest : List AccAddress) (hs : d.GetSigners = signer :: rest) :
    d.FeePayer = signer ∧
      ∀ d2 : DecodedTx, d2.GetSigners = d.GetSigners → d2.FeePayer = signer := by
  have key : ∀ d2 : DecodedTx, d2.GetSigners = signer :: rest → d2.FeePayer = signer := by
    intro d2 h2
    unfold DecodedTx.FeePayer
    rw [h2]
  exact ⟨key d hs, fun d2 h2 => key d2 (h2.trans hs)⟩

theorem FeePayer_eq_first_signer_witness :
    sampleDecoded.FeePayer = [1] ∧
      ∀ d2 : DecodedTx, d2.GetSigners = sampleDecoded.GetSigners → d2.FeePayer = [1] :=
  FeePayer_eq_first_signer sampleDecoded [1] [[2], [3]] rfl

/-! ## Failure conditions of the decoder -/

theorem decodeMsgs_error_iff (env : Env) (anys : List Any) :
    (∃ err, decodeMsgs env anys = .error err) ↔
      ∃ a ∈ anys, ∀ m : Msg, a.GetCachedValue ≠ .msg m := by
  induction anys with
  | nil => simp [decodeMsgs]
  | cons a rest ih =>
    unfold decodeMsgs
    cases hc : a.GetCachedValue with
    | msg m =>
      simp only [List.mem_cons, exists_eq_or_imp, hc]
      cases hrest : decodeMsgs env rest with
      | ok ms =>
        have hno : ¬ ∃ err, decodeMsgs env rest = .error err := by simp [hrest]
        rw [ih] at hno
        simp only [reduceCtorEq, exists_false, false_iff, not_or]
        exact ⟨fun h => h m rfl, hno⟩
      | error e =>
        have hyes : ∃ err, decodeMsgs env rest = .error err := ⟨e, hrest⟩
        rw [ih] at hyes
        simp only [Except.error.injEq, exists_eq', true_iff]
        exact Or.inr hyes
    | pubKey k =>
      simp only [List.mem_cons, exists_eq_or_imp, hc]
      simp
    | other =>
      simp only [List.mem_cons, exists_eq_or_imp, hc]
      simp

theorem signerInfoLoop_error_iff (env : Env) (signers : List AccAddress)
    (sis : List SignerInfo) :
    ∀ (i : Nat) (st : List PubKey × GoMap SignerInfo),
      (∃ err, signerInfoLoop env signers i sis st = .error err) ↔
        ∃ si ∈ sis, ∀ k : PubKey, si.PublicKey.GetCachedValue ≠ .pubKey k := by
  induction sis with
  | nil =>
    intro i st
    simp [signerInfoLoop]
  | cons si rest ih =>
    intro i st
    unfold signerInfoLoop
    cases hc : si.PublicKey.GetCachedValue with
    | pubKey k =>
      simp only [List.mem_cons, exists_eq_or_imp, hc]
      rw [ih]
      constructor
      · exact fun h => Or.inr h
      · rintro (h | h)
        · exact absurd rfl (h k)
        · exact h
    | msg m =>
      simp only [List.mem_cons, exists_eq_or_imp, hc]
      simp
    | other =>
      simp only [List.mem_cons, exists_eq_or_imp, hc]
      simp

theorem except_ok_iff_not_error {ε α : Type} (x : Except ε α) :
    (∃ a, x = .ok a) ↔ ¬ ∃ e, x = .error e := by
  cases x <;> simp

/-- How `DefaultTxDecoder` ends once both unmarshalling steps have succeeded. -/
theorem DefaultTxDecoder_of_unmarshalled (env : Env) (txBytes : Bytes) (raw : TxRaw) (tx : Tx)
    (hraw : env.unmarshalTxRaw txBytes = .ok raw) (htx : env.unmarshalTx txBytes = .ok tx) :
    (∃ err, DefaultTxDecoder env txBytes = .error err) ↔
      (∃ a ∈ tx.Body.Messages, ∀ m : Msg, a.GetCachedValue ≠ .msg m) ∨
        (∃ si ∈ tx.AuthInfo.SignerInfos, ∀ k : PubKey,
          si.PublicKey.GetCachedValue ≠ .pubKey k) := by
  unfold DefaultTxDecoder
  simp only [hraw, htx]
  cases hm : decodeMsgs env tx.Body.Messages with
  | error e =>
    have h1 : ∃ a ∈ tx.Body.Messages, ∀ m : Msg, a.GetCachedValue ≠ .msg m :=
      (decodeMsgs_error_iff env _).mp ⟨e, hm⟩
    simp only [Except.error.injEq, exists_eq', true_iff]
    exact Or.inl h1
  | ok msgs =>
    have h1 : ¬ ∃ a ∈ tx.Body.Messages, ∀ m : Msg, a.GetCachedValue ≠ .msg m := by
      rw [← decodeMsgs_error_iff env]
      simp [hm]
    simp only [h1, false_or]
    rw [← signerInfoLoop_error_iff env (resolveSigners env msgs) tx.AuthInfo.SignerInfos 0
      ([], [])]
    cases hl : signerInfoLoop env (resolveSigners env msgs) 0 tx.AuthInfo.SignerInfos
      ([], []) with
    | error e => simp
    | ok st => simp

/-- On a transaction whose body, auth-info and public keys are present:
`DefaultTxDecoder` fails if and only if unmarshalling the raw transaction fails, or
unmarshalling the structured transaction fails, or some body message does not hold an
`sdk.Msg`, or the declared public key of some signer info does not hold a
`crypto.PubKey`; and it returns a decoded transaction if and only if it does not fail. -/
theorem DefaultTxDecoder_error_iff (env : Env) (txBytes : Bytes) :
    ((∃ err, DefaultTxDecoder env txBytes = .error err) ↔
        (∃ err, env.unmarshalTxRaw txBytes = .error err) ∨
          (∃ err, env.unmarshalTx txBytes = .error err) ∨
          ∃ tx, env.unmarshalTx txBytes = .ok tx ∧
            ((∃ a ∈ tx.Body.Messages, ∀ m : Msg, a.GetCachedValue ≠ .msg m) ∨
              (∃ si ∈ tx.AuthInfo.SignerInfos, ∀ k : PubKey,
                si.PublicKey.GetCachedValue ≠ .pubKey k))) ∧
      ((∃ d, DefaultTxDecoder env txBytes = .ok d) ↔
        ¬ ∃ err, DefaultTxDecoder env txBytes = .error err) := by
  refine ⟨?_, except_ok_iff_not_error _⟩
  cases hraw : env.unmarshalTxRaw txBytes with
  | error e =>
    have : DefaultTxDecoder env txBytes = .error e := by
      unfold DefaultTxDecoder
      simp only [hraw]
    simp [this]
  | ok raw =>
    cases htx : env.unmarshalTx txBytes with
    | error e =>
      have : DefaultTxDecoder env txBytes = .error e := by
        unfold DefaultTxDecoder
        simp only [hraw, htx]
      simp [this]
    | ok tx =>
      rw [DefaultTxDecoder_of_unmarshalled env txBytes raw tx hraw htx]
      simp

theorem DefaultTxDecoder_error_iff_witness :
    (¬ ∃ err, DefaultTxDecoder sampleLib [1] = .error err) ∧
      (∃ err, DefaultTxDecoder sampleLib [] = .error err) ∧
      (∃ err,
        DefaultTxDecoder
          (sampleEnv sampleRaw
            { sampleTx with
              Body := { Messages := [sampleKeyAny 1], Memo := "" } }) [1] = .error err) :=
  ⟨(DefaultTxDecoder_error_iff sampleLib [1]).2.mp ⟨sampleDecoded, sampleDecoded_eq⟩,
    (DefaultTxDecoder_error_iff sampleLib []).1.mpr (Or.inl ⟨.external "EOF", rfl⟩),
    (DefaultTxDecoder_error_iff _ [1]).1.mpr
      (Or.inr (Or.inr ⟨_, rfl, Or.inl ⟨sampleKeyAny 1, by decide,
        fun m h => CachedValue.noConfusion h⟩⟩))⟩

/-! ## Encodings that omit a sub-message -/

/-- When body and auth-info are both present, the decoder with explicit pointers does
what `DefaultTxDecoder` does on the transaction they point to. -/
theorem DefaultTxDecoderPointers_of_present (env : Env)
    (unmarshalTx : Bytes → Except Error TxPointers) (txBytes : Bytes) (body : TxBody)
    (authInfo : AuthInfo) (sigs : List Bytes)
    (hptr : unmarshalTx txBytes =
      .ok { Body := some body, AuthInfo := some authInfo, Signatures := sigs })
    (htx : env.unmarshalTx txBytes =
      .ok { Body := body, AuthInfo := authInfo, Signatures := sigs }) :
    DefaultTxDecoderPointers env unmarshalTx txBytes =
      Outcome.ofExcept (DefaultTxDecoder env txBytes) := by
  unfold DefaultTxDecoderPointers DefaultTxDecoder
  simp only [hptr, htx]
  cases env.unmarshalTxRaw txBytes with
  | error e => rfl
  | ok raw =>
    simp only
    cases decodeMsgs env body.Messages with
    | error e => rfl
    | ok msgs =>
      simp only
      cases signerInfoLoop env (resolveSigners env msgs) 0 authInfo.SignerInfos ([], []) with
      | error e => rfl
      | ok st => rfl

/-- The decoder with explicit pointers aborts exactly when both unmarshalling steps
succeed and either the body is missing, or the body is present, all its messages hold an
`sdk.Msg`, and the auth-info is missing. -/
theorem DefaultTxDecoderPointers_abort_iff (env : Env)
    (unmarshalTx : Bytes → Except Error TxPointers) (txBytes : Bytes) :
    DefaultTxDecoderPointers env unmarshalTx txBytes = .abort ↔
      ∃ raw tx, env.unmarshalTxRaw txBytes = .ok raw ∧ unmarshalTx txBytes = .ok tx ∧
        (tx.Body = none ∨
          ∃ body msgs, tx.Body = some body ∧ decodeMsgs env body.Messages = .ok msgs ∧
            tx.AuthInfo = none) := by
  unfold DefaultTxDecoderPointers
  cases hraw : env.unmarshalTxRaw txBytes with
  | error e => simp
  | ok raw =>
    cases htx : unmarshalTx txBytes with
    | error e => simp
    | ok tx =>
      cases hb : tx.Body with
      | none => simp [hb]
      | some body =>
        cases hm : decodeMsgs env body.Messages with
        | error e => simp [hb, hm]
        | ok msgs =>
          cases ha : tx.AuthInfo with
          | none => simp [hb, hm, ha]
          | some authInfo =>
            cases hl : signerInfoLoop env (resolveSigners env msgs) 0 authInfo.SignerInfos
              ([], []) with
            | error e => simp [hb, hm, ha, hl]
            | ok st => simp [hb, hm, ha, hl]

/-- C17 fails on the code: on the empty buffer, which unmarshals without error to a
transaction with no body and no auth-info, the decoder neither returns a decoded
transaction nor a decode error but aborts at `tx.Body.Messages`; on a buffer that encodes
a body and omits the auth-info it aborts at `tx.AuthInfo.SignerInfos`; on a buffer with
both present it returns the decoded transaction as before. -/
theorem DefaultTxDecoder_aborts_on_missing_sub_message :
    protoLib.unmarshalTxRaw [] = .ok { BodyBytes := [], AuthInfoBytes := [], Signatures := [] } ∧
      protoUnmarshalTx [] = .ok { Body := none, AuthInfo := none, Signatures := [] } ∧
      DefaultTxDecoderPointers protoLib protoUnmarshalTx [] = .abort ∧
      DefaultTxDecoderPointers protoLib protoUnmarshalTx [2] = .abort ∧
      DefaultTxDecoderPointers protoLib protoUnmarshalTx [1] = .ok sampleDecoded :=
  ⟨rfl, rfl, rfl, rfl, rfl⟩

/-! ## Order of the ante handler -/

/-- C18: the handler built by `newAnteHandler` is the composition of the eleven stages
in the canonical order, whatever decorators the constructors return; run with decorators
that record their stage and pass on, it runs the eleven stages in exactly that order;
in that order fee deduction comes before public-key setup and before signature
verification, and the sequence increment is last. -/
theorem newAnteHandler_canonical_order :
    (∀ (σ τ : Type) (decorators : AnteStage → AnteDecorator σ τ),
        newAnteHandler decorators = ChainAnteDecorators (canonicalStages.map decorators)) ∧
      newAnteHandler recordingDecorator [] () false = .ok canonicalStages ∧
      canonicalStages.length = 11 ∧
      canonicalStages.Nodup ∧
      canonicalStages.indexOf .DeductGrantedFee < canonicalStages.indexOf .SetPubKey ∧
      canonicalStages.indexOf .DeductGrantedFee < canonicalStages.indexOf .SigVerification ∧
      canonicalStages.getLast? = some .IncrementSequence :=
  ⟨fun _ _ _ => rfl, rfl, rfl, by decide, by decide, by decide, rfl⟩

/-! ## Fee deduction -/

theorem FeeStores.Get_of_live {A : Type} (st : FeeStores A) (granter grantee : AccAddress)
    (now : Nat) (limit : Option A) (expiration : Option Nat)
    (hal : st.allowance granter grantee =
      some { SpendLimit := limit, Expiration := expiration })
    (hlive : ∀ t, expiration = some t → ¬ t < now) :
    st.Get granter grantee now = some { SpendLimit := limit, Expiration := expiration } := by
  unfold FeeStores.Get
  rw [hal]
  cases expiration with
  | none => rfl
  | some t => simp [hlive t rfl]

theorem DeductGrantedFee_of_other_payer {A : Type} [LE A] [∀ a b : A, Decidable (a ≤ b)]
    [Sub A] [Zero A] [DecidableEq A] (st : FeeStores A) (now : Nat)
    (granter grantee : AccAddress) (fee : A) (hne : granter ≠ grantee) :
    DeductGrantedFee st now grantee (some granter) fee =
      match UseAllowance st granter grantee fee now with
      | .error err => (st, some err)
      | .ok st1 =>
        match DeductFees st1 granter fee with
        | .ok st2 => (st2, none)
        | .error err => (st, some err) := by
  unfold DeductGrantedFee
  simp only [Option.getD_some, hne, if_false]

/-- The model on the nine cases that `TestDeductFeesNoDelegation` runs on the decorator
alone, in the order of the table. It gives eight of them the verdict the test expects
(invalid, valid, invalid, valid, valid, invalid, invalid, invalid for the first four and
the last four); the fifth, a zero fee from a signer without an account, passes the
decorator as section 4.5 of the spec words it. -/
theorem DeductGrantedFee_test_table :
    (DeductGrantedFee testStores 1 [1] none 50).2 = some .InsufficientFunds ∧
      (DeductGrantedFee testStores 1 [2] none 50).2 = none ∧
      (DeductGrantedFee testStores 1 [3] none 1).2 = some .InsufficientFunds ∧
      (DeductGrantedFee testStores 1 [1] none 0).2 = none ∧
      (DeductGrantedFee testStores 1 [4] none 0).2 = none ∧
      (DeductGrantedFee testStores 1 [3] (some [2]) 50).2 = none ∧
      (DeductGrantedFee testStores 1 [3] (some [1]) 2).2 = some .NoAllowance ∧
      (DeductGrantedFee testStores 1 [4] (some [2]) 50).2 = some .AllowanceExceeded ∧
      (DeductGrantedFee testStores 1 [4] (some [1]) 50).2 = some .NoAllowance :=
  ⟨rfl, rfl, rfl, rfl, rfl, rfl, rfl, rfl, rfl⟩

/-- C19, as stated, fails: with the allowance of 500 from `[2]` to `[3]` of the test and
a granter holding 99999, the fee 500 is at most the limit and the deduction succeeds, but
it does not leave the allowance at 500 - 500: the record is deleted. And with an
allowance of 500 from `[1]`, who holds 10, to `[4]`, the fee 50 is at most the limit but
the deduction fails with `InsufficientFunds`. -/
theorem DeductGrantedFee_exact_limit_counterexample :
    (testStores.allowance [2] [3] = some { SpendLimit := some 500, Expiration := none } ∧
        (500 : Nat) ≤ 500 ∧
        (DeductGrantedFee testStores 0 [3] (some [2]) 500).2 = none ∧
        (DeductGrantedFee testStores 0 [3] (some [2]) 500).1.allowance [2] [3] = none ∧
        (DeductGrantedFee testStores 0 [3] (some [2]) 500).1.allowance [2] [3] ≠
          some { SpendLimit := some (500 - 500), Expiration := none }) ∧
      (poorGranterStores.allowance [1] [4] =
          some { SpendLimit := some 500, Expiration := none } ∧
        (50 : Nat) ≤ 500 ∧
        (DeductGrantedFee poorGranterStores 0 [4] (some [1]) 50).2 =
          some .InsufficientFunds) :=
  ⟨⟨rfl, by decide, rfl, rfl, by decide⟩, rfl, by decide, rfl⟩

/-- C19, amended: with a live allowance of limit `limit` from a granter to a different
grantee, for a transaction signed by the grantee that names the granter as payer: a fee
below the limit, which the granter's existing account can pay, succeeds, leaves the
allowance at `limit - fee` and takes the fee from the granter's balance; a fee equal to
the limit, under the same conditions, succeeds and deletes the allowance record; a fee
that exceeds the limit fails with `AllowanceExceeded` and leaves all stores as they
were. -/
theorem DeductGrantedFee_allowance {A : Type} [CanonicallyOrderedAddCommMonoid A] [Sub A]
    [OrderedSub A] [∀ a b : A, Decidable (a ≤ b)] [DecidableEq A] (st : FeeStores A)
    (now : Nat) (granter grantee : AccAddress) (limit fee : A) (expiration : Option Nat)
    (hne : granter ≠ grantee)
    (hal : st.allowance granter grantee =
      some { SpendLimit := some limit, Expiration := expiration })
    (hlive : ∀ t, expiration = some t → ¬ t < now) :
    (fee ≤ limit → fee ≠ limit → st.accountExists granter = true →
        fee ≤ st.balance granter →
        (DeductGrantedFee st now grantee (some granter) fee).2 = none ∧
          (DeductGrantedFee st now grantee (some granter) fee).1.allowance granter grantee =
            some { SpendLimit := some (limit - fee), Expiration := expiration } ∧
          (DeductGrantedFee st now grantee (some granter) fee).1.balance granter =
            st.balance granter - fee) ∧
      (fee = limit → st.accountExists granter = true → fee ≤ st.balance granter →
        (DeductGrantedFee st now grantee (some granter) fee).2 = none ∧
          (DeductGrantedFee st now grantee (some granter) fee).1.allowance granter grantee =
            none) ∧
      (¬ fee ≤ limit →
        DeductGrantedFee st now grantee (some granter) fee =
          (st, some .AllowanceExceeded)) := by
  have hget := FeeStores.Get_of_live st granter grantee now (some limit) expiration hal hlive
  rw [DeductGrantedFee_of_other_payer st now granter grantee fee hne]
  refine ⟨fun hle hneq hex hbal => ?_, fun heq hex hbal => ?_, fun hgt => ?_⟩
  · have hnz : ¬ limit - fee = 0 := fun hc =>
      hneq (le_antisymm hle (tsub_eq_zero_iff_le.mp hc))
    simp [UseAllowance, hget, hle, hnz, DeductFees, FeeStores.setAllowance, hex, hbal]
  · subst heq
    simp [UseAllowance, hget, DeductFees, FeeStores.setAllowance, hex, hbal]
  · simp [UseAllowance, hget, hgt]

theorem DeductGrantedFee_allowance_witness :
    ((DeductGrantedFee testStores 0 [3] (some [2]) 50).2 = none ∧
        (DeductGrantedFee testStores 0 [3] (some [2]) 50).1.allowance [2] [3] =
          some { SpendLimit := some (500 - 50), Expiration := none } ∧
        (DeductGrantedFee testStores 0 [3] (some [2]) 50).1.balance [2] =
          testStores.balance [2] - 50) ∧
      DeductGrantedFee testStores 0 [4] (some [2]) 50 =
        (testStores, some .AllowanceExceeded) ∧
      DeductGrantedFee (DeductGrantedFee testStores 0 [3] (some [2]) 50).1 0 [3] (some [2]) 500 =
        ((DeductGrantedFee testStores 0 [3] (some [2]) 50).1, some .AllowanceExceeded) :=
  ⟨(DeductGrantedFee_allowance testStores 0 [2] [3] 500 50 none (by decide) rfl
      (fun t ht => by cases ht)).1 (by decide) (by decide) rfl (by decide),
    (DeductGrantedFee_allowance testStores 0 [2] [4] 20 50 none (by decide) rfl
      (fun t ht => by cases ht)).2.2 (by decide),
    (DeductGrantedFee_allowance (DeductGrantedFee testStores 0 [3] (some [2]) 50).1 0 [2] [3]
      450 500 none (by decide) rfl (fun t ht => by cases ht)).2.2 (by decide)⟩

/-- C20: an existing account that pays its own fee (no payer declared, or itself
declared) fails with `InsufficientFunds`, the stores staying as they were, whenever the
fee exceeds its balance, and succeeds with its balance unchanged whenever the fee is zero,
whatever the balance and whatever allowances exist. -/
theorem DeductGrantedFee_own_fee {A : Type} [CanonicallyOrderedAddCommMonoid A] [Sub A]
    [OrderedSub A] [∀ a b : A, Decidable (a ≤ b)] [DecidableEq A] (st : FeeStores A)
    (now : Nat) (signer : AccAddress) (declaredPayer : Option AccAddress) (fee : A)
    (hself : declaredPayer = none ∨ declaredPayer = some signer)
    (hex : st.accountExists signer = true) :
    (¬ fee ≤ st.balance signer →
        DeductGrantedFee st now signer declaredPayer fee = (st, some .InsufficientFunds)) ∧
      (fee = 0 →
        (DeductGrantedFee st now signer declaredPayer fee).2 = none ∧
          (DeductGrantedFee st now signer declaredPayer fee).1.balance signer =
            st.balance signer) := by
  have hpayer : declaredPayer.getD signer = signer := by
    rcases hself with h | h <;> simp [h]
  unfold DeductGrantedFee
  simp only [hpayer, if_true]
  refine ⟨fun hgt => ?_, fun hz => ?_⟩
  · simp [DeductFees, hex, hgt]
  · subst hz
    simp [DeductFees, hex]

theorem DeductGrantedFee_own_fee_witness :
    DeductGrantedFee testStores 0 [1] none 50 = (testStores, some .InsufficientFunds) ∧
      (DeductGrantedFee testStores 0 [1] none 0).2 = none ∧
      (DeductGrantedFee testStores 0 [1] none 0).1.balance [1] = testStores.balance [1] :=
  ⟨(DeductGrantedFee_own_fee testStores 0 [1] none 50 (Or.inl rfl) rfl).1 (by decide),
    (DeductGrantedFee_own_fee testStores 0 [1] none 0 (Or.inl rfl) rfl).2 rfl⟩

/-! ## The fee deduction decorator on its own -/

theorem noSignerDecoded_eq : DefaultTxDecoder noSignerLib [1] = .ok noSignerDecoded := by
  rfl

theorem extraInfoDecoded_eq : DefaultTxDecoder extraInfoLib [1] = .ok extraInfoDecoded := by
  rfl

/-- A zero fee passes the fee deduction of the spec whatever the payer: nothing is
deducted, whether or not the signer has an account. -/
theorem DeductGrantedFee_zero_fee_own {A : Type} [CanonicallyOrderedAddCommMonoid A]
    [Sub A] [OrderedSub A] [∀ a b : A, Decidable (a ≤ b)] [DecidableEq A] (st : FeeStores A)
    (now : Nat) (signer : AccAddress) (declaredPayer : Option AccAddress)
    (hself : declaredPayer = none ∨ declaredPayer = some signer) :
    (DeductGrantedFee st now signer declaredPayer 0).2 = none := by
  have hpayer : declaredPayer.getD signer = signer := by
    rcases hself with h | h <;> simp [h]
  unfold DeductGrantedFee
  simp [hpayer, DeductFees]

/-- C23: when the gas and fee checks pass and the transaction has no signature,
`ValidateBasic` returns `ErrNoSignatures` itself, whatever the number of signers and in
particular when there is no signer either, so that the two counts match; the result is
neither an `ErrUnauthorized` error nor success. -/
theorem ValidateBasic_no_signatures (env : Env) (d : DecodedTx)
    (hgas : d.GetGas ≤ env.MaxGasWanted) (hfee : Coins.IsAnyNegative d.GetFee = false)
    (hsigs : d.Tx.Signatures.length = 0) :
    d.ValidateBasic env = .error (.registered .ErrNoSignatures) ∧
      (Error.registered SdkError.ErrNoSignatures).kind = some .ErrNoSignatures ∧
      (∀ err, d.ValidateBasic env = .error err → err.kind ≠ some .ErrUnauthorized) ∧
      d.ValidateBasic env ≠ .ok () := by
  have h : d.ValidateBasic env = .error (.registered .ErrNoSignatures) := by
    simp [DecodedTx.ValidateBasic, Nat.not_lt.mpr hgas, hfee, hsigs]
  refine ⟨h, rfl, ?_, ?_⟩
  · intro err herr
    rw [h] at herr
    cases herr
    decide
  · rw [h]
    simp

theorem ValidateBasic_no_signatures_witness :
    DefaultTxDecoder noSignerLib [1] = .ok noSignerDecoded ∧
      noSignerDecoded.GetSigners.length = 0 ∧
      noSignerDecoded.Tx.Signatures.length = noSignerDecoded.GetSigners.length ∧
      noSignerDecoded.ValidateBasic noSignerLib = .error (.registered .ErrNoSignatures) :=
  ⟨noSignerDecoded_eq, rfl, rfl,
    (ValidateBasic_no_signatures noSignerLib noSignerDecoded (by decide) (by decide)
      (by decide)).1⟩

/-! ## The signer info loop as a whole -/

theorem GoMap.set_of_not_mem {V : Type} (m : GoMap V) (k : String) (v : V)
    (h : k ∉ m.keys) : m.set k v = m ++ [(k, v)] := by
  induction m with
  | nil => rfl
  | cons p m ih =>
    obtain ⟨k0, v0⟩ := p
    simp only [GoMap.keys, List.map_cons, List.mem_cons, not_or] at h
    have h0 : ¬ k0 = k := fun hc => h.1 hc.symm
    simp only [GoMap.set, h0, if_false, List.cons_append, List.cons.injEq, true_and]
    exact ih h.2

theorem GoMap.get_of_not_mem {V : Type} (m : GoMap V) (k : String) (h : k ∉ m.keys) :
    m.get k = none := by
  induction m with
  | nil => rfl
  | cons p m ih =>
    obtain ⟨k0, v0⟩ := p
    simp only [GoMap.keys, List.map_cons, List.mem_cons, not_or] at h
    have h0 : ¬ k0 = k := fun hc => h.1 hc.symm
    simp only [GoMap.get, h0, if_false]
    exact ih h.2

theorem GoMap.mem_of_get {V : Type} (m : GoMap V) (k : String) (v : V)
    (h : m.get k = some v) : (k, v) ∈ m := by
  induction m with
  | nil => simp [GoMap.get] at h
  | cons p m ih =>
    obtain ⟨k0, v0⟩ := p
    by_cases h0 : k0 = k
    · simp only [GoMap.get, h0, if_true, Option.some.injEq] at h
      subst h0
      subst h
      exact List.mem_cons_self _ _
    · simp only [GoMap.get, h0, if_false] at h
      exact List.mem_cons_of_mem _ (ih h)

/-- The map built by the loop of lines 67-78 from index `i` on: the entries already
there, followed by the remaining signers paired with the signer infos in order. -/
theorem signerInfoLoop_map (env : Env) (signers : List AccAddress)
    (hnd : (signers.map env.addrString).Nodup) (sis : List SignerInfo) :
    ∀ (i : Nat) (st st' : List PubKey × GoMap SignerInfo),
      (∀ k ∈ st.2.keys, k ∉ (signers.drop i).map env.addrString) →
      signerInfoLoop env signers i sis st = .ok st' →
      st'.2 = st.2 ++ List.zip ((signers.drop i).map env.addrString) sis := by
  induction sis with
  | nil =>
    intro i st st' _ h
    simp only [signerInfoLoop, Except.ok.injEq] at h
    subst h
    simp
  | cons si rest ih =>
    intro i st st' hdisj h
    unfold signerInfoLoop at h
    split at h
    swap
    · simp at h
    rename_i pubKey _
    by_cases hlt : i < signers.length
    · have hdrop : signers.drop i = signers[i] :: signers.drop (i + 1) :=
        List.drop_eq_getElem_cons hlt
      have hnd2 : ((signers.drop i).map env.addrString).Nodup :=
        hnd.sublist ((List.drop_sublist i signers).map _)
      rw [hdrop, List.map_cons, List.nodup_cons] at hnd2
      have hkey : env.addrString signers[i] ∉ st.2.keys := by
        intro hc
        apply hdisj _ hc
        rw [hdrop]
        exact List.mem_cons_self _ _
      simp only [hlt, dite_true] at h
      rw [GoMap.set_of_not_mem _ _ _ hkey] at h
      have := ih (i + 1) _ st' (by
        intro k hk
        simp only [GoMap.keys, List.map_append, List.map_cons, List.map_nil, List.mem_append,
          List.mem_singleton] at hk
        rcases hk with hk | hk
        · intro hc
          apply hdisj k hk
          rw [hdrop]
          exact List.mem_cons_of_mem _ hc
        · rw [hk]
          exact hnd2.1) h
      rw [this, hdrop]
      simp only [List.map_cons, List.zip_cons_cons, List.append_assoc, List.singleton_append]
    · have hdrop : signers.drop i = [] := List.drop_eq_nil_of_le (by omega)
      have hdrop1 : signers.drop (i + 1) = [] := List.drop_eq_nil_of_le (by omega)
      simp only [hlt, dite_false] at h
      have := ih (i + 1) _ st' (by
        intro k _
        rw [hdrop1]
        simp) h
      rw [this, hdrop, hdrop1]
      simp

/-- The public keys collected by the loop of lines 67-78: those already there, followed
by the keys that the signer infos declare, in order. -/
theorem signerInfoLoop_pubKeys (env : Env) (signers : List AccAddress)
    (sis : List SignerInfo) :
    ∀ (i : Nat) (st st' : List PubKey × GoMap SignerInfo),
      signerInfoLoop env signers i sis st = .ok st' →
      st'.1.map CachedValue.pubKey =
        st.1.map CachedValue.pubKey ++ sis.map fun si => si.PublicKey.GetCachedValue := by
  induction sis with
  | nil =>
    intro i st st' h
    simp only [signerInfoLoop, Except.ok.injEq] at h
    subst h
    simp
  | cons si rest ih =>
    intro i st st' h
    unfold signerInfoLoop at h
    split at h
    swap
    · simp at h
    rename_i pubKey hkey
    rw [ih (i + 1) _ st' h]
    simp [hkey]

/-- The whole `SignerInfoMap` of a decoded transaction: the signers, by address string,
paired in order with the signer infos, as far as both lists go. -/
theorem DefaultTxDecoder_signerInfoMap_eq_zip (env : Env) (txBytes : Bytes) (d : DecodedTx)
    (hdec : DefaultTxDecoder env txBytes = .ok d) :
    d.SignerInfoMap =
      List.zip (d.Signers.map env.addrString) d.Tx.AuthInfo.SignerInfos := by
  obtain ⟨_, _, _, hsigners, hloop⟩ := DefaultTxDecoder_ok env txBytes d hdec
  have hnd : (d.Signers.map env.addrString).Nodup := by
    rw [hsigners]
    exact nodup_strings_resolveSigners env d.Msgs
  have h := signerInfoLoop_map env d.Signers hnd d.Tx.AuthInfo.SignerInfos 0 _ _
    (by intro k hk; simp [GoMap.keys] at hk) hloop
  simpa using h

theorem DefaultTxDecoder_signers_nodup_strings (env : Env) (txBytes : Bytes) (d : DecodedTx)
    (hdec : DefaultTxDecoder env txBytes = .ok d) :
    (d.Signers.map env.addrString).Nodup := by
  obtain ⟨_, _, _, hsigners, _⟩ := DefaultTxDecoder_ok env txBytes d hdec
  rw [hsigners]
  exact nodup_strings_resolveSigners env d.Msgs

theorem map_fst_zip_eq_take {α β : Type} (l1 : List α) :
    ∀ l2 : List β, (List.zip l1 l2).map Prod.fst = l1.take l2.length := by
  induction l1 with
  | nil => intro l2; simp
  | cons a l1 ih =>
    intro l2
    cases l2 with
    | nil => simp
    | cons b l2 => simp [ih l2]

theorem take_min_length {α : Type} (l : List α) (m : Nat) :
    l.take (min l.length m) = l.take m := by
  by_cases h : l.length ≤ m
  · rw [Nat.min_eq_left h, List.take_of_length_le h, List.take_of_length_le (le_refl _)]
  · rw [Nat.min_eq_right (by omega)]

theorem not_mem_take_of_nodup {κ : Type} (l : List κ) (hnd : l.Nodup) (m j : Nat)
    (hj : j < l.length) (hmj : m ≤ j) : l[j] ∉ l.take m := by
  intro hc
  obtain ⟨i, hi, heq⟩ := List.mem_iff_getElem.mp hc
  rw [List.getElem_take] at heq
  have hi2 : i < m := by
    have := hi
    rw [List.length_take] at this
    omega
  have hil : i < l.length := by
    have := hi
    rw [List.length_take] at this
    omega
  have : i = j := (@List.Nodup.getElem_inj_iff _ l hnd i hil j hj).mp heq
  omega

/-! ## Signers without a signer info -/

/-- C22: for an account whose address string has no entry in `SignerInfoMap`,
`GetSignBytes` fails with the error "missing SignerInfo for address" followed by the
address, at every block height; and for a successfully decoded transaction, this is the
case of every signer at a position at or beyond the number of signer infos. -/
theorem GetSignBytes_missing_signerInfo (env : Env) :
    (∀ (d : DecodedTx) (ctx : Context) (acc : Account),
        d.SignerInfoMap.get (env.addrString acc.GetAddress) = none →
        d.GetSignBytes env ctx acc =
          .error (.errorf ("missing SignerInfo for address " ++
            env.addrString acc.GetAddress))) ∧
      (∀ (txBytes : Bytes) (d : DecodedTx), DefaultTxDecoder env txBytes = .ok d →
        ∀ (j : Nat) (hj : j < d.GetSigners.length),
          d.Tx.AuthInfo.SignerInfos.length ≤ j →
          ∀ (ctx : Context) (acc : Account), acc.GetAddress = d.GetSigners[j] →
            d.GetSignBytes env ctx acc =
              .error (.errorf ("missing SignerInfo for address " ++
                env.addrString acc.GetAddress))) := by
  have hmissing : ∀ (d : DecodedTx) (ctx : Context) (acc : Account),
      d.SignerInfoMap.get (env.addrString acc.GetAddress) = none →
      d.GetSignBytes env ctx acc =
        .error (.errorf ("missing SignerInfo for address " ++
          env.addrString acc.GetAddress)) := by
    intro d ctx acc hnone
    unfold DecodedTx.GetSignBytes
    simp only [hnone]
  refine ⟨hmissing, ?_⟩
  intro txBytes d hdec j hj hge ctx acc hacc
  apply hmissing
  apply GoMap.get_of_not_mem
  have hj2 : j < d.Signers.length := hj
  have hnd := DefaultTxDecoder_signers_nodup_strings env txBytes d hdec
  rw [GoMap.keys, DefaultTxDecoder_signerInfoMap_eq_zip env txBytes d hdec,
    map_fst_zip_eq_take, hacc]
  have hj3 : j < (d.Signers.map env.addrString).length := by
    rw [List.length_map]
    exact hj2
  have h := not_mem_take_of_nodup (d.Signers.map env.addrString) hnd
    d.Tx.AuthInfo.SignerInfos.length j hj3 hge
  rw [List.getElem_map] at h
  exact h

theorem GetSignBytes_missing_signerInfo_witness :
    DefaultTxDecoder sampleLib [1] = .ok sampleDecoded ∧
      sampleDecoded.Tx.AuthInfo.SignerInfos.length ≤ 2 ∧
      sampleDecoded.GetSignBytes sampleLib (sampleCtx 0) (sampleAccount [3]) =
        .error (.errorf ("missing SignerInfo for address " ++
          sampleLib.addrString (sampleAccount [3]).GetAddress)) :=
  ⟨sampleDecoded_eq, by decide,
    (GetSignBytes_missing_signerInfo sampleLib).2 [1] sampleDecoded sampleDecoded_eq 2
      (by decide) (by decide) (sampleCtx 0) (sampleAccount [3]) rfl⟩

/-! ## Extent of the signer info map and of the public keys -/

/-- C24: for a successfully decoded transaction with `n` signers and `m` signer infos,
the keys of `SignerInfoMap` are exactly the address strings of the first `min n m`
signers, the map has `min n m` entries, and every entry reachable through it is the
signer info at a position below both `n` and `m`, stored under the signer at that
position; the signer infos at positions `n` and beyond are not in it. -/
theorem DefaultTxDecoder_signerInfoMap_extent (env : Env) (txBytes : Bytes) (d : DecodedTx)
    (hdec : DefaultTxDecoder env txBytes = .ok d) :
    d.SignerInfoMap.keys =
        (d.GetSigners.take (min d.GetSigners.length d.Tx.AuthInfo.SignerInfos.length)).map
          env.addrString ∧
      d.SignerInfoMap.length = min d.GetSigners.length d.Tx.AuthInfo.SignerInfos.length ∧
      ∀ (k : String) (si : SignerInfo), d.SignerInfoMap.get k = some si →
        ∃ i : Nat, i < d.GetSigners.length ∧ i < d.Tx.AuthInfo.SignerInfos.length ∧
          (d.GetSigners[i]?).map env.addrString = some k ∧
          d.Tx.AuthInfo.SignerInfos[i]? = some si := by
  have hzip := DefaultTxDecoder_signerInfoMap_eq_zip env txBytes d hdec
  refine ⟨?_, ?_, ?_⟩
  · show d.SignerInfoMap.keys =
      (d.Signers.take (min d.Signers.length d.Tx.AuthInfo.SignerInfos.length)).map
        env.addrString
    rw [GoMap.keys, hzip, map_fst_zip_eq_take, take_min_length, List.map_take]
  · show d.SignerInfoMap.length = min d.Signers.length d.Tx.AuthInfo.SignerInfos.length
    rw [hzip, List.length_zip, List.length_map]
  · intro k si hget
    have hmem := GoMap.mem_of_get _ _ _ hget
    rw [hzip] at hmem
    obtain ⟨i, hi⟩ := List.mem_iff_getElem?.mp hmem
    rw [List.getElem?_zip_eq_some] at hi
    obtain ⟨h1, h2⟩ := hi
    simp only [List.getElem?_map] at h1
    have hlt1 : i < d.Signers.length := by
      by_contra hc
      rw [List.getElem?_eq_none (by omega)] at h1
      simp at h1
    have hlt2 : i < d.Tx.AuthInfo.SignerInfos.length :=
      (List.getElem?_eq_some.mp h2).1
    exact ⟨i, hlt1, hlt2, h1, h2⟩

theorem DefaultTxDecoder_signerInfoMap_extent_witness :
    DefaultTxDecoder extraInfoLib [1] = .ok extraInfoDecoded ∧
      extraInfoDecoded.GetSigners.length = 1 ∧
      extraInfoDecoded.Tx.AuthInfo.SignerInfos.length = 2 ∧
      extraInfoDecoded.SignerInfoMap.keys = [extraInfoLib.addrString [7]] ∧
      extraInfoDecoded.SignerInfoMap.length =
        min extraInfoDecoded.GetSigners.length
          extraInfoDecoded.Tx.AuthInfo.SignerInfos.length :=
  ⟨extraInfoDecoded_eq, rfl, rfl, rfl,
    (DefaultTxDecoder_signerInfoMap_extent extraInfoLib [1] extraInfoDecoded
      extraInfoDecoded_eq).2.1⟩

/-- C25: for a successfully decoded transaction, `GetPubKeys()` has as many entries as the
auth-info has signer infos, whatever the number of signers, and its entry at every
position is the public key that the signer info at that position declares. -/
theorem DefaultTxDecoder_pubKeys (env : Env) (txBytes : Bytes) (d : DecodedTx)
    (hdec : DefaultTxDecoder env txBytes = .ok d) :
    d.GetPubKeys.length = d.Tx.AuthInfo.SignerInfos.length ∧
      ∀ (i : Nat) (h1 : i < d.GetPubKeys.length) (h2 : i < d.Tx.AuthInfo.SignerInfos.length),
        d.Tx.AuthInfo.SignerInfos[i].PublicKey.GetCachedValue =
          .pubKey d.GetPubKeys[i] := by
  obtain ⟨_, _, _, _, hloop⟩ := DefaultTxDecoder_ok env txBytes d hdec
  have h := signerInfoLoop_pubKeys env d.Signers d.Tx.AuthInfo.SignerInfos 0 _ _ hloop
  simp only [List.map_nil, List.nil_append] at h
  have hlen : d.PubKeys.length = d.Tx.AuthInfo.SignerInfos.length := by
    have := congrArg List.length h
    simpa using this
  refine ⟨hlen, ?_⟩
  intro i h1 h2
  have h1b : i < d.PubKeys.length := h1
  have hi : (d.PubKeys.map CachedValue.pubKey)[i]? =
      (d.Tx.AuthInfo.SignerInfos.map fun si => si.PublicKey.GetCachedValue)[i]? := by
    rw [h]
  simp only [List.getElem?_map, List.getElem?_eq_getElem h1b, List.getElem?_eq_getElem h2,
    Option.map_some', Option.some.injEq] at hi
  exact hi.symm

theorem DefaultTxDecoder_pubKeys_witness :
    DefaultTxDecoder extraInfoLib [1] = .ok extraInfoDecoded ∧
      extraInfoDecoded.GetSigners.length = 1 ∧
      extraInfoDecoded.GetPubKeys.length = extraInfoDecoded.Tx.AuthInfo.SignerInfos.length ∧
      (extraInfoDecoded.Tx.AuthInfo.SignerInfos.get ⟨1, by decide⟩).PublicKey.GetCachedValue =
        .pubKey (extraInfoDecoded.GetPubKeys.get ⟨1, by decide⟩) :=
  ⟨extraInfoDecoded_eq, rfl,
    (DefaultTxDecoder_pubKeys extraInfoLib [1] extraInfoDecoded extraInfoDecoded_eq).1,
    (DefaultTxDecoder_pubKeys extraInfoLib [1] extraInfoDecoded extraInfoDecoded_eq).2 1
      (by decide) (by decide)⟩

/-! ## The fee payer of a decoded transaction -/

theorem signerStepSlice_rel (env : Env) (ss : Slice AccAddress × GoMap Bool)
    (s : List AccAddress × GoMap Bool) (addr : AccAddress) (h : SliceRel ss s) :
    SliceRel (signerStepSlice env ss addr) (signerStep env s addr) := by
  obtain ⟨h1, h2, h3⟩ := h
  unfold signerStepSlice signerStep
  rw [h1]
  by_cases hseen : (s.2.get (env.addrString addr)).getD false = false
  · simp only [hseen, if_true]
    refine ⟨rfl, ?_, ?_⟩
    · have hget : ss.1.getD [] = s.1 := h2
      show Slice.toList (Slice.append ss.1 addr) = s.1 ++ [addr]
      simp [Slice.toList, Slice.append, hget]
    · simp [Slice.append]
  · simp only [hseen, if_false]
    exact ⟨h1, h2, h3⟩

theorem foldl_signerStepSlice_rel (env : Env) (l : List AccAddress) :
    ∀ (ss : Slice AccAddress × GoMap Bool) (s : List AccAddress × GoMap Bool),
      SliceRel ss s →
      SliceRel (l.foldl (signerStepSlice env) ss) (l.foldl (signerStep env) s) := by
  induction l with
  | nil => intro ss s h; exact h
  | cons a l ih =>
    intro ss s h
    simp only [List.foldl_cons]
    exact ih _ _ (signerStepSlice_rel env ss s a h)

/-- The signer slice holds the signer list of the embedding, and it is nil exactly when
that list is empty. -/
theorem resolveSignersSlice_rel (env : Env) (msgs : List Msg) :
    (resolveSignersSlice env msgs).toList = resolveSigners env msgs ∧
      (resolveSignersSlice env msgs = none ↔ resolveSigners env msgs = []) := by
  have h1 : msgs.foldl (fun st msg => msg.GetSigners.foldl (signerStepSlice env) st)
      (none, []) = (requiredSigners msgs).foldl (signerStepSlice env) (none, []) := by
    unfold requiredSigners
    rw [List.foldl_flatten, List.foldl_map]
  have h2 : msgs.foldl (fun st msg => msg.GetSigners.foldl (signerStep env) st) ([], []) =
      (requiredSigners msgs).foldl (signerStep env) ([], []) := by
    unfold requiredSigners
    rw [List.foldl_flatten, List.foldl_map]
  have hrel := foldl_signerStepSlice_rel env (requiredSigners msgs) (none, []) ([], [])
    ⟨rfl, rfl, by simp⟩
  unfold resolveSignersSlice resolveSigners
  rw [h1, h2]
  exact ⟨hrel.2.1, hrel.2.2⟩

theorem firstOccurrencesBy_eq_nil_iff {α κ : Type} [DecidableEq κ] (key : α → κ)
    (l : List α) : firstOccurrencesBy key l = [] ↔ l = [] := by
  cases l <;> simp [firstOccurrencesBy]

/-- C26: for a transaction produced by `DefaultTxDecoder`, the signer slice is nil exactly
when the messages require no signer, so `FeePayer` never evaluates `signers[0]` on an
empty slice: it returns the first required signer when the messages require at least
one, and the empty address when they require none. -/
theorem FeePayer_of_decoded (env : Env) (txBytes : Bytes) (d : DecodedTx)
    (hdec : DefaultTxDecoder env txBytes = .ok d) :
    (resolveSignersSlice env d.GetMsgs).toList = d.GetSigners ∧
      (resolveSignersSlice env d.GetMsgs = none ↔ requiredSigners d.GetMsgs = []) ∧
      FeePayerOfSlice (resolveSignersSlice env d.GetMsgs) = .ok d.FeePayer ∧
      (∀ (signer : AccAddress) (rest : List AccAddress),
        requiredSigners d.GetMsgs = signer :: rest → d.FeePayer = signer) ∧
      (requiredSigners d.GetMsgs = [] → d.FeePayer = []) := by
  obtain ⟨_, _, _, hsigners, _⟩ := DefaultTxDecoder_ok env txBytes d hdec
  obtain ⟨hlist, hnil⟩ := resolveSignersSlice_rel env d.Msgs
  have hreq : d.Signers = firstOccurrencesBy env.addrString (requiredSigners d.Msgs) := by
    rw [hsigners, resolveSigners_eq]
  refine ⟨?_, ?_, ?_, ?_, ?_⟩
  · show (resolveSignersSlice env d.Msgs).toList = d.Signers
    rw [hlist, hsigners]
  · show resolveSignersSlice env d.Msgs = none ↔ requiredSigners d.Msgs = []
    rw [hnil, resolveSigners_eq, firstOccurrencesBy_eq_nil_iff]
  · show FeePayerOfSlice (resolveSignersSlice env d.Msgs) = .ok d.FeePayer
    cases hs : resolveSignersSlice env d.Msgs with
    | none =>
      have hempty : d.Signers = [] := by
        rw [hsigners]
        exact hnil.mp hs
      simp [FeePayerOfSlice, DecodedTx.FeePayer, DecodedTx.GetSigners, hempty]
    | some l =>
      have hl : l = d.Signers := by
        have := hlist
        rw [hs] at this
        rw [hsigners]
        exact this
      have hne : d.Signers ≠ [] := by
        rw [hsigners]
        intro hc
        have := hnil.mpr hc
        rw [hs] at this
        cases this
      subst hl
      cases hd : d.Signers with
      | nil => exact absurd hd hne
      | cons a rest =>
        simp [FeePayerOfSlice, DecodedTx.FeePayer, DecodedTx.GetSigners, hd]
  · intro signer rest hr
    have hr2 : requiredSigners d.Msgs = signer :: rest := hr
    unfold DecodedTx.FeePayer DecodedTx.GetSigners
    rw [hreq, hr2]
    simp [firstOccurrencesBy]
  · intro hr
    have hr2 : requiredSigners d.Msgs = [] := hr
    unfold DecodedTx.FeePayer DecodedTx.GetSigners
    rw [hreq, hr2]
    simp [firstOccurrencesBy]

theorem FeePayer_of_decoded_witness :
    DefaultTxDecoder noSignerLib [1] = .ok noSignerDecoded ∧
      resolveSignersSlice noSignerLib noSignerDecoded.GetMsgs = none ∧
      noSignerDecoded.FeePayer = [] ∧
      DefaultTxDecoder sampleLib [1] = .ok sampleDecoded ∧
      FeePayerOfSlice (resolveSignersSlice sampleLib sampleDecoded.GetMsgs) = .ok [1] ∧
      sampleDecoded.FeePayer = [1] :=
  ⟨noSignerDecoded_eq,
    (FeePayer_of_decoded noSignerLib [1] noSignerDecoded noSignerDecoded_eq).2.1.mpr rfl,
    (FeePayer_of_decoded noSignerLib [1] noSignerDecoded noSignerDecoded_eq).2.2.2.2 rfl,
    sampleDecoded_eq,
    (FeePayer_of_decoded sampleLib [1] sampleDecoded sampleDecoded_eq).2.2.1,
    (FeePayer_of_decoded sampleLib [1] sampleDecoded sampleDecoded_eq).2.2.2.1 [1]
      [[2], [2], [1], [3]] rfl⟩

/-! ## Appending a message -/

theorem firstOccurrencesBy_prefix {α κ : Type} [DecidableEq κ] (key : α → κ)
    (l1 l2 : List α) : firstOccurrencesBy key l1 <+: firstOccurrencesBy key (l1 ++ l2) := by
  induction l1 with
  | nil => exact List.nil_prefix
  | cons a l1 ih =>
    simp only [List.cons_append, firstOccurrencesBy]
    rw [List.prefix_cons_inj]
    exact ih.filter _

theorem resolveSigners_append_prefix (env : Env) (ms extra : List Msg) :
    resolveSigners env ms <+: resolveSigners env (ms ++ extra) := by
  rw [resolveSigners_eq, resolveSigners_eq]
  have : requiredSigners (ms ++ extra) = requiredSigners ms ++ requiredSigners extra := by
    simp [requiredSigners]
  rw [this]
  exact firstOccurrencesBy_prefix _ _ _

/-- C27: signer resolution is prefix-monotone in the message list: the signers resolved
from `ms` are a prefix of the signers resolved from `ms` followed by `m`, each of them
keeps its position, and so it is for two decoded transactions whose message lists are
`ms` and `ms` followed by `m`. -/
theorem resolveSigners_prefix_monotone (env : Env) (ms : List Msg) (m : Msg) :
    resolveSigners env ms <+: resolveSigners env (ms ++ [m]) ∧
      (∀ (i : Nat) (addr : AccAddress), (resolveSigners env ms)[i]? = some addr →
        (resolveSigners env (ms ++ [m]))[i]? = some addr) ∧
      (∀ (txBytes1 txBytes2 : Bytes) (d1 d2 : DecodedTx),
        DefaultTxDecoder env txBytes1 = .ok d1 → DefaultTxDecoder env txBytes2 = .ok d2 →
        d1.GetMsgs = ms → d2.GetMsgs = ms ++ [m] → d1.GetSigners <+: d2.GetSigners) := by
  have hp := resolveSigners_append_prefix env ms [m]
  refine ⟨hp, ?_, ?_⟩
  · intro i addr hi
    obtain ⟨t, ht⟩ := hp
    rw [← ht]
    obtain ⟨hlt, _⟩ := List.getElem?_eq_some.mp hi
    rw [List.getElem?_append_left hlt]
    exact hi
  · intro b1 b2 d1 d2 h1 h2 hm1 hm2
    obtain ⟨_, _, _, hs1, _⟩ := DefaultTxDecoder_ok env b1 d1 h1
    obtain ⟨_, _, _, hs2, _⟩ := DefaultTxDecoder_ok env b2 d2 h2
    have hm1b : d1.Msgs = ms := hm1
    have hm2b : d2.Msgs = ms ++ [m] := hm2
    show d1.Signers <+: d2.Signers
    rw [hs1, hs2, hm1b, hm2b]
    exact hp

theorem resolveSigners_prefix_monotone_witness :
    resolveSigners sampleLib [{ GetSigners := [[1], [2]], GetSignBytes := [1, 2] }] =
        [[1], [2]] ∧
      resolveSigners sampleLib sampleDecoded.GetMsgs = [[1], [2], [3]] ∧
      resolveSigners sampleLib [{ GetSigners := [[1], [2]], GetSignBytes := [1, 2] }] <+:
        resolveSigners sampleLib
          ([{ GetSigners := [[1], [2]], GetSignBytes := [1, 2] }] ++
            [{ GetSigners := [[2], [1], [3]], GetSignBytes := [2, 1, 3] }]) :=
  ⟨rfl, rfl,
    (resolveSigners_prefix_monotone sampleLib
      [{ GetSigners := [[1], [2]], GetSignBytes := [1, 2] }]
      { GetSigners := [[2], [1], [3]], GetSignBytes := [2, 1, 3] }).1⟩

/-! ## Agreement of the two descriptions on present sub-messages -/

theorem GoMap.get_toWire (m : GoMap SignerInfo) (k : String) :
    (GoMap.toWire m).get k = (m.get k).map SignerInfo.toWire := by
  induction m with
  | nil => rfl
  | cons p m ih =>
    obtain ⟨k0, v0⟩ := p
    by_cases h : k0 = k
    · simp [GoMap.toWire, GoMap.get, h]
    · have ih2 : GoMap.get (List.map (fun entry => (entry.1, entry.2.toWire)) m) k =
          (GoMap.get m k).map SignerInfo.toWire := ih
      simp [GoMap.toWire, GoMap.get, h, ih2]

theorem GoMap.set_toWire (m : GoMap SignerInfo) (k : String) (si : SignerInfo) :
    (GoMap.toWire m).set k si.toWire = GoMap.toWire (m.set k si) := by
  induction m with
  | nil => rfl
  | cons p m ih =>
    obtain ⟨k0, v0⟩ := p
    by_cases h : k0 = k
    · simp [GoMap.toWire, GoMap.set, h]
    · have ih2 : GoMap.set (List.map (fun entry => (entry.1, entry.2.toWire)) m) k si.toWire =
          List.map (fun entry => (entry.1, entry.2.toWire)) (GoMap.set m k si) := ih
      simp [GoMap.toWire, GoMap.set, h, ih2]

theorem signerInfoLoopWire_toWire (env : Env) (signers : List AccAddress)
    (sis : List SignerInfo) :
    ∀ (i : Nat) (st : List PubKey × GoMap SignerInfo),
      signerInfoLoopWire env signers i (sis.map SignerInfo.toWire)
          (st.1, GoMap.toWire st.2) =
        (Outcome.ofExcept (signerInfoLoop env signers i sis st)).map
          fun r => (r.1, GoMap.toWire r.2) := by
  induction sis with
  | nil =>
    intro i st
    rfl
  | cons si rest ih =>
    intro i st
    simp only [List.map_cons]
    unfold signerInfoLoopWire signerInfoLoop
    simp only [SignerInfo.toWire]
    cases hc : si.PublicKey.GetCachedValue with
    | pubKey k =>
      simp only
      by_cases hlt : i < signers.length
      · simp only [hlt, dite_true]
        have := ih (i + 1) (st.1 ++ [k], st.2.set (env.addrString signers[i]) si)
        rw [← this, ← GoMap.set_toWire]
        rfl
      · simp only [hlt, dite_false]
        exact ih (i + 1) (st.1 ++ [k], st.2)
    | msg m => rfl
    | other => rfl

/-- On a transaction with every sub-message present, the decoder with pointers returns
what `DefaultTxDecoder` returns. -/
theorem DefaultTxDecoderWire_toWire (env : Env) (txBytes : Bytes) :
    DefaultTxDecoderWire env (fun bz => (env.unmarshalTx bz).map Tx.toWire) txBytes =
      (Outcome.ofExcept (DefaultTxDecoder env txBytes)).map DecodedTx.toWire := by
  unfold DefaultTxDecoderWire DefaultTxDecoder
  cases env.unmarshalTxRaw txBytes with
  | error e => rfl
  | ok raw =>
    simp only
    cases env.unmarshalTx txBytes with
    | error e => rfl
    | ok tx =>
      simp only [Except.map, Tx.toWire]
      cases decodeMsgs env tx.Body.Messages with
      | error e => rfl
      | ok msgs =>
        simp only [AuthInfo.toWire]
        have h := signerInfoLoopWire_toWire env (resolveSigners env msgs)
          tx.AuthInfo.SignerInfos 0 ([], [])
        have h2 : signerInfoLoopWire env (resolveSigners env msgs) 0
            (List.map SignerInfo.toWire tx.AuthInfo.SignerInfos) ([], []) =
            (Outcome.ofExcept (signerInfoLoop env (resolveSigners env msgs) 0
              tx.AuthInfo.SignerInfos ([], []))).map fun r => (r.1, GoMap.toWire r.2) := h
        rw [h2]
        cases signerInfoLoop env (resolveSigners env msgs) 0 tx.AuthInfo.SignerInfos
          ([], []) with
        | error e => rfl
        | ok st => rfl

/-- On a decoded transaction with every sub-message present, `ValidateBasic` with
pointers returns what `ValidateBasic` returns. -/
theorem ValidateBasic_toWire (env : Env) (d : DecodedTx) :
    d.toWire.ValidateBasic env = Outcome.ofExcept (d.ValidateBasic env) := by
  unfold WireDecodedTx.ValidateBasic DecodedTx.ValidateBasic
  simp only [DecodedTx.toWire, Tx.toWire, AuthInfo.toWire, WireDecodedTx.GetGas,
    WireDecodedTx.GetFee, WireDecodedTx.GetSigners, Outcome.bind, DecodedTx.GetGas,
    DecodedTx.GetFee, DecodedTx.GetSigners]
  split_ifs <;> rfl

/-- On a decoded transaction with every sub-message present, `GetSignBytes` with
pointers returns what `GetSignBytes` returns. -/
theorem GetSignBytes_toWire (env : Env) (d : DecodedTx) (ctx : Context) (acc : Account) :
    d.toWire.GetSignBytes env ctx acc = Outcome.ofExcept (d.GetSignBytes env ctx acc) := by
  unfold WireDecodedTx.GetSignBytes DecodedTx.GetSignBytes
  simp only [DecodedTx.toWire, GoMap.get_toWire]
  cases d.SignerInfoMap.get (env.addrString acc.GetAddress) with
  | none => rfl
  | some si =>
    simp only [Option.map_some', SignerInfo.toWire]
    rcases hs : si.ModeInfo.Sum with mode | desc | _
    · cases mode <;> rfl
    · rfl
    · rfl

/-! ## Where a missing sub-message aborts -/

/-- `ValidateBasic` with pointers aborts exactly when the auth-info or its fee is
missing. -/
theorem WireDecodedTx.ValidateBasic_abort_iff (env : Env) (d : WireDecodedTx) :
    d.ValidateBasic env = .abort ↔
      d.Tx.AuthInfo = none ∨ ∃ authInfo, d.Tx.AuthInfo = some authInfo ∧ authInfo.Fee = none := by
  unfold WireDecodedTx.ValidateBasic
  simp only [WireDecodedTx.GetGas, WireDecodedTx.GetFee]
  cases ha : d.Tx.AuthInfo with
  | none => simp [Outcome.bind]
  | some authInfo =>
    cases hf : authInfo.Fee with
    | none => simp [Outcome.bind, hf]
    | some fee =>
      simp only [Outcome.bind, reduceCtorEq, false_or, Option.some.injEq, exists_eq_left', hf,
        iff_false]
      split_ifs <;> simp

/-- C5 fails on the code: the buffer `[3]` decodes to a transaction with three signers,
two signatures and no fee, and on it `ValidateBasic` neither returns an error nor
succeeds: it aborts in `d.GetGas()` on the nil fee before any check is made. -/
theorem ValidateBasic_aborts_on_count_mismatch_without_fee :
    DefaultTxDecoderWire protoLib wireUnmarshalTx [3] = .ok (feelessDecoded [[7], [8]]) ∧
      (feelessDecoded [[7], [8]]).Tx.Signatures.length ≠
        (feelessDecoded [[7], [8]]).GetSigners.length ∧
      (feelessDecoded [[7], [8]]).ValidateBasic protoLib = .abort ∧
      ∀ err : Error, (feelessDecoded [[7], [8]]).ValidateBasic protoLib ≠ .error err :=
  ⟨rfl, by decide, rfl, fun _ h => Outcome.noConfusion h⟩

/-- C6 fails on the code: the buffer `[4]` decodes to a transaction with three signers,
three signatures and no fee, so that there is a signature, the counts are equal, and no
gas limit above the bound or negative coin is declared; `ValidateBasic` does not succeed
on it but aborts in `d.GetGas()` on the nil fee. -/
theorem ValidateBasic_aborts_without_fee :
    DefaultTxDecoderWire protoLib wireUnmarshalTx [4] =
        .ok (feelessDecoded [[7], [8], [9]]) ∧
      0 < (feelessDecoded [[7], [8], [9]]).Tx.Signatures.length ∧
      (feelessDecoded [[7], [8], [9]]).Tx.Signatures.length =
        (feelessDecoded [[7], [8], [9]]).GetSigners.length ∧
      (feelessDecoded [[7], [8], [9]]).GetGas = .abort ∧
      (feelessDecoded [[7], [8], [9]]).ValidateBasic protoLib = .abort ∧
      (feelessDecoded [[7], [8], [9]]).ValidateBasic protoLib ≠ .ok () :=
  ⟨rfl, by decide, by decide, rfl, rfl, fun h => Outcome.noConfusion h⟩

/-- C10 fails on the code: the buffer `[5]` decodes to a transaction whose signer `[1]`
has a signer info without mode info, and for that signer `GetSignBytes` returns neither
bytes nor an error: it aborts at `signerInfo.ModeInfo.Sum`. -/
theorem GetSignBytes_aborts_without_mode_info :
    DefaultTxDecoderWire protoLib wireUnmarshalTx [5] = .ok modelessDecoded ∧
      modelessDecoded.SignerInfoMap.get (protoLib.addrString (sampleAccount [1]).GetAddress) =
        some { PublicKey := some (sampleKeyAny 101), ModeInfo := none } ∧
      modelessDecoded.GetSignBytes protoLib (sampleCtx 1) (sampleAccount [1]) = .abort ∧
      ∀ err : Error,
        modelessDecoded.GetSignBytes protoLib (sampleCtx 1) (sampleAccount [1]) ≠
          .error err :=
  ⟨rfl, rfl, rfl, fun _ h => Outcome.noConfusion h⟩

/-- C12 fails on the code: in the transaction without a fee decoded from the buffer
`[4]`, the signer `[2]` declares the single mode Legacy-Amino-JSON, and for that signer
`GetSignBytes` does not succeed: it aborts in `d.GetFee()` on the nil fee; the Direct
signer `[1]` of the same transaction gets its bytes. -/
theorem GetSignBytes_legacy_aborts_without_fee :
    DefaultTxDecoderWire protoLib wireUnmarshalTx [4] =
        .ok (feelessDecoded [[7], [8], [9]]) ∧
      (feelessDecoded [[7], [8], [9]]).SignerInfoMap.get
          (protoLib.addrString (sampleAccount [2]).GetAddress) =
        some (sampleSignerInfo 102 .SIGN_MODE_LEGACY_AMINO_JSON).toWire ∧
      (feelessDecoded [[7], [8], [9]]).GetFee = .abort ∧
      (feelessDecoded [[7], [8], [9]]).GetSignBytes protoLib (sampleCtx 1)
          (sampleAccount [2]) = .abort ∧
      (feelessDecoded [[7], [8], [9]]).GetSignBytes protoLib (sampleCtx 1)
          (sampleAccount [1]) = .ok [10, 11, 20, 10, 9, 4] :=
  ⟨rfl, rfl, rfl, rfl, rfl⟩

/-- The decoder with pointers aborts exactly when both unmarshalling steps succeed and
the body is missing, or the messages decode and the auth-info is missing, or the
messages decode and the signer info loop aborts on a missing public key. -/
theorem DefaultTxDecoderWire_abort_iff (env : Env)
    (unmarshalTx : Bytes → Except Error WireTx) (txBytes : Bytes) :
    DefaultTxDecoderWire env unmarshalTx txBytes = .abort ↔
      ∃ raw tx, env.unmarshalTxRaw txBytes = .ok raw ∧ unmarshalTx txBytes = .ok tx ∧
        (tx.Body = none ∨
          ∃ body msgs, tx.Body = some body ∧ decodeMsgs env body.Messages = .ok msgs ∧
            (tx.AuthInfo = none ∨
              ∃ authInfo, tx.AuthInfo = some authInfo ∧
                signerInfoLoopWire env (resolveSigners env msgs) 0 authInfo.SignerInfos
                  ([], []) = .abort)) := by
  unfold DefaultTxDecoderWire
  cases hraw : env.unmarshalTxRaw txBytes with
  | error e => simp
  | ok raw =>
    cases htx : unmarshalTx txBytes with
    | error e => simp
    | ok tx =>
      cases hb : tx.Body with
      | none => simp [hb]
      | some body =>
        cases hm : decodeMsgs env body.Messages with
        | error e => simp [hb, hm]
        | ok msgs =>
          cases ha : tx.AuthInfo with
          | none => simp [hb, hm, ha]
          | some authInfo =>
            cases hl : signerInfoLoopWire env (resolveSigners env msgs) 0
              authInfo.SignerInfos ([], []) with
            | error e => simp [hb, hm, ha, hl]
            | abort => simp [hb, hm, ha, hl]
            | ok st => simp [hb, hm, ha, hl]

/-- C16 fails on the code: on the empty buffer both unmarshalling steps succeed and there
is no body message and no signer info, so none of the failure conditions holds, yet no
decoded transaction is returned: the decoder aborts at `tx.Body.Messages`; and on the
buffer `[6]`, whose signer info omits the public key, it does not fail with an error but
aborts in the call on `si.PublicKey`. -/
theorem DefaultTxDecoder_neither_fails_nor_returns :
    protoLib.unmarshalTxRaw [] =
        .ok { BodyBytes := [], AuthInfoBytes := [], Signatures := [] } ∧
      wireUnmarshalTx [] = .ok { Body := none, AuthInfo := none, Signatures := [] } ∧
      DefaultTxDecoderWire protoLib wireUnmarshalTx [] = .abort ∧
      (∀ d : WireDecodedTx, DefaultTxDecoderWire protoLib wireUnmarshalTx [] ≠ .ok d) ∧
      (∀ err : Error, DefaultTxDecoderWire protoLib wireUnmarshalTx [] ≠ .error err) ∧
      DefaultTxDecoderWire protoLib wireUnmarshalTx [6] = .abort ∧
      (∀ err : Error, DefaultTxDecoderWire protoLib wireUnmarshalTx [6] ≠ .error err) :=
  ⟨rfl, rfl, rfl, fun _ h => Outcome.noConfusion h, fun _ h => Outcome.noConfusion h, rfl,
    fun _ h => Outcome.noConfusion h⟩

end Ante
